import Mathlib

/-
  Verification of the accounts-script source against its specification.

  Shallow embedding of the transformation pipeline of the Google-Apps-Script
  repository (src/unnamed/part_006, src/src/main.js, src/src/utils.js and the
  PartyLedger module embedded in src/SETUP.md): value parsing, header
  detection, row transformation, ledger classification, party aggregation,
  totals rendering and the master index.

  Conventions used throughout:
  - JS numbers are modelled as rationals.  All amounts flowing through the
    pipeline are finite decimals; IEEE rounding is irrelevant to the claims,
    and the JS literal Infinity (reachable only through the unrealistic raw
    cell text "Infinity") is not modelled.
  - JS strings are Lean strings; every string operation is re-implemented
    structurally over List Char so that concrete instances evaluate.
  - Raw spreadsheet cells (the values produced by getValues()) are the type
    Cell below: a string (empty cells read back as ""), a number, or a date.
  - Fallible host calls are modelled with Option / Except.
-/

/-- Character class of the JS regex \s as used by the source's cleaning
regexes: space, tab, LF, VT, FF, CR and NBSP (by code point). -/
def isWsCh (c : Char) : Bool :=
  c.toNat = 32 || c.toNat = 9 || c.toNat = 10 || c.toNat = 11 ||
  c.toNat = 12 || c.toNat = 13 || c.toNat = 160

/-- ASCII decimal digit test (code points 48-57), the digit class used by the
JS numeric grammar. -/
def isDigitCh (c : Char) : Bool :=
  48 ≤ c.toNat && c.toNat ≤ 57

/-- Characters removed by the amount cleaners: the regex [₹$,\s] appearing in
parseNumericValue (part_006 line 31), parseNum inside transformRow
(main.js line 476) and Utils.parseNumber (utils.js line 60). -/
def isStrippedChar (c : Char) : Bool :=
  c = '₹' || c = '$' || c = ',' || isWsCh c

/-- Model of String(val).replace(/[₹$,\s]/g, ''). -/
def stripCurrency (s : String) : String :=
  String.mk (s.data.filter (fun c => !isStrippedChar c))

/-- Value of a list of ASCII digits read left to right. -/
def digitsVal (l : List Char) : Nat :=
  l.foldl (fun a c => 10 * a + (c.toNat - 48)) 0

/-- Rational power of ten with a natural exponent. -/
def pow10 (n : Nat) : ℚ :=
  ((10 ^ n : ℕ) : ℚ)

/-- Rational power of ten with an integer exponent. -/
def qpow10 (e : Int) : ℚ :=
  if 0 ≤ e then pow10 e.toNat else 1 / pow10 (-e).toNat

/-- Exponent clause of JS parseFloat: an optional sign followed by digits;
when no digit follows, the exponent is not consumed and contributes 0. -/
def parseExpVal (cs : List Char) : Int :=
  let sr : Int × List Char :=
    match cs with
    | [] => (1, [])
    | c :: r => if c = '-' then (-1, r) else if c = '+' then (1, r) else (1, c :: r)
  let ds := sr.2.takeWhile isDigitCh
  if ds = [] then 0 else sr.1 * (digitsVal ds : Int)

/-- Optional leading sign of the JS numeric grammar. -/
def splitSign (cs : List Char) : ℚ × List Char :=
  match cs with
  | [] => (1, [])
  | c :: r => if c = '-' then (-1, r) else if c = '+' then (1, r) else (1, c :: r)

/-- Optional fractional part: a dot followed by digits, returning the
fraction digits and the remainder of the input. -/
def splitFrac (cs : List Char) : List Char × List Char :=
  match cs with
  | [] => ([], [])
  | c :: r => if c = '.' then (r.takeWhile isDigitCh, r.dropWhile isDigitCh) else ([], c :: r)

/-- Exponent marker: an e or E introducing the exponent clause. -/
def splitExp (cs : List Char) : Int :=
  match cs with
  | [] => 0
  | c :: r => if c = 'e' || c = 'E' then parseExpVal r else 0

/-- Model of JS parseFloat: skip leading whitespace, then read the longest
prefix of the form [sign] digits [. digits] [exponent]; none models NaN
(no digit found in either the integer or the fractional position). -/
def parseFloatQ (s : String) : Option ℚ :=
  let cs0 := s.data.dropWhile isWsCh
  let sgn := (splitSign cs0).1
  let cs1 := (splitSign cs0).2
  let ip := cs1.takeWhile isDigitCh
  let rest1 := cs1.dropWhile isDigitCh
  let fp := (splitFrac rest1).1
  let rest2 := (splitFrac rest1).2
  if ip = [] && fp = [] then none
  else some (sgn * ((digitsVal ip : ℚ) + (digitsVal fp : ℚ) / pow10 fp.length) * qpow10 (splitExp rest2))

/-- Raw spreadsheet cell as returned by getValues(): a string (an empty cell
reads back as the empty string), a number, or a date (held as its epoch
timestamp in milliseconds).  Boolean cells never occur in the sources the
script reads and are not modelled. -/
inductive Cell where
| str (s : String)
| num (q : ℚ)
| dateCell (t : Int)
deriving DecidableEq, Repr

/-- JS truthiness of a raw cell: the empty string and the number 0 are falsy,
every date object is truthy. -/
def cellTruthy : Cell → Bool
| .str s => s ≠ ""
| .num q => q ≠ 0
| .dateCell _ => true

/-- Model of the JS String() conversion on a raw cell.  Numeric and date
renderings are stand-ins (JS prints "0.5" where Lean prints "1/2", and
dates print as a locale string); every use in the claims only needs that
these renderings are never equal to the alphabetic header keywords and
never parse as numbers, which holds for both renderings. -/
def cellToString : Cell → String
| .str s => s
| .num q => toString q
| .dateCell t => "Date(" ++ toString t ++ ")"

/-- Model of parseNumericValue (part_006 lines 27-33), identical to parseNum
inside transformRow (main.js lines 473-478) and Utils.parseNumber
(utils.js lines 55-63): falsy input gives 0, numbers pass through, strings
are cleaned by the [₹$,\s] regex and fed to parseFloat, with || 0 mapping a
NaN parse to 0. -/
def parseNumericValue (val : Cell) : ℚ :=
  if !cellTruthy val then 0
  else match val with
  | .num q => q
  | v => (parseFloatQ (stripCurrency (cellToString v))).getD 0

/-- Lift of parseNumericValue to a possibly-null cell (getVal returns null
for an unmapped column): parseNum(null) takes the !val branch and gives 0. -/
def parseNumCell (v : Option Cell) : ℚ :=
  match v with
  | some c => parseNumericValue c
  | none => 0

/-- Document type of a standardized transaction: the three source kinds. -/
inductive SourceType where
| PURCHASE
| SALES
| BANK
deriving DecidableEq, Repr

/-- The string name of a source type, used where the JS code treats the
sourceType string as data (docType, voucherType fallback). -/
def sourceTypeName : SourceType → String
| .PURCHASE => "PURCHASE"
| .SALES => "SALES"
| .BANK => "BANK"

/-- Ledger category: SU (supplier) or CU (customer). -/
inductive Cat where
| SU
| CU
deriving DecidableEq, Repr

/-- The two-letter string of a ledger category, as concatenated into the
grouping key partyId|category. -/
def catStr : Cat → String
| .SU => "SU"
| .CU => "CU"

/-- Semantic view of the JS value held in a transaction's date field:
null/empty/0 (falsy, which new Date(d || 0) maps to the epoch), a date
carrying an epoch-millisecond timestamp (a Date object, a parseable string
or a nonzero number), or a non-empty string that does not parse as a date
(new Date gives an Invalid Date whose time value is NaN). -/
inductive JSDate where
| missing
| valid (t : Int)
| invalid (s : String)
deriving DecidableEq, Repr

/-- StandardizedTransaction: the record built by transformRow and
fetchBankDataAllTabs. -/
structure Txn where
  date : JSDate
  partyId : String
  partyName : String
  docType : SourceType
  docNo : String
  voucherType : String
  particulars : String
  debit : ℚ
  credit : ℚ
  reference : String
deriving DecidableEq, Repr

/-- Does the pattern begin the list? -/
def startsList : List Char → List Char → Bool
| [], _ => true
| _ :: _, [] => false
| p :: ps, c :: cs => p = c && startsList ps cs

/-- Does the pattern occur at any position? -/
def includesAux (pat : List Char) : List Char → Bool
| [] => startsList pat []
| c :: rest => startsList pat (c :: rest) || includesAux pat rest

/-- Model of JS String.prototype.includes. -/
def strIncludes (s pat : String) : Bool :=
  includesAux pat.data s.data

/-- Model of JS String.prototype.toUpperCase via the per-character upper-case
map (the identifiers and keywords the source upper-cases are ASCII). -/
def jsUpper (s : String) : String :=
  String.mk (s.data.map Char.toUpper)

/-- Model of determineLedgerCategory (part_006 lines 629-667).  The argument
is the already upper-cased party ID, exactly as the caller passes it.  The
final some .CU of the MAS branch mirrors the source's fall-through from the
MAS block (both credit and debit non-positive) to the BANK default return,
and the source's trailing non-BANK default is unreachable with the
three-valued docType. -/
def determineLedgerCategory (partyId : String) (docType : SourceType) (txn : Txn) : Option Cat :=
  match docType with
  | .PURCHASE => some .SU
  | .SALES => some .CU
  | .BANK =>
    if strIncludes partyId "-SUP-" then some .SU
    else if strIncludes partyId "-CUS-" || strIncludes partyId "-REN-" || strIncludes partyId "-DEA-" then
      some .CU
    else if strIncludes partyId "-CON-" then none
    else if strIncludes partyId "-MAS-" then
      if txn.credit > 0 then some .SU
      else if txn.debit > 0 then some .CU
      else some .CU
    else some .CU

/-- Bare BANK transaction used in concrete classification examples. -/
def bankTxn (pid : String) (d c : ℚ) : Txn :=
  { date := .missing, partyId := pid, partyName := "", docType := .BANK, docNo := "",
    voucherType := "BANK", particulars := "", debit := d, credit := c, reference := "" }

/-- PartyLedger aggregate as built by generateAllLedgers (part_006 lines
554-575): identity, category, its transaction list, running totals and the
last-transaction date.  The contact-enrichment fields filled in afterwards
from the external contacts sheet are not part of the grouping logic and are
not modelled. -/
structure Ledger where
  id : String
  name : String
  ledgerCategory : Cat
  typeLabel : String
  transactions : List Txn
  totalDebit : ℚ
  totalCredit : ℚ
  lastTransaction : Option JSDate
deriving DecidableEq, Repr

/-- First-match lookup in an association list, the behavior of reading a
string-keyed JS object property. -/
def lookupA {β : Type} : List (String × β) → String → Option β
| [], _ => none
| e :: es, k => if e.1 = k then some e.2 else lookupA es k

/-- In-place update of every entry holding the key (JS objects hold one), the
behavior of assigning to an existing property: insertion order is kept. -/
def updateA {β : Type} (m : List (String × β)) (k : String) (f : β → β) : List (String × β) :=
  m.map (fun e => if e.1 = k then (e.1, f e.2) else e)

/-- Numeric time value JS obtains when a date field is used in a relational
comparison or via new Date(d || 0): falsy values give the epoch, dates give
their timestamp, an unparseable non-empty string gives NaN (none). -/
def effNum : JSDate → Option Int
| .missing => some 0
| .valid t => some t
| .invalid _ => none

/-- JS truthiness of the stored date value. -/
def jsDateTruthy : JSDate → Bool
| .missing => false
| .valid _ => true
| .invalid _ => true

/-- JS relational txn.date > last: NaN on either side compares false. -/
def jsDateGt (a b : JSDate) : Bool :=
  match effNum a, effNum b with
  | some x, some y => x > y
  | _, _ => false

/-- Model of the lastTransaction running update (part_006 lines 571-574):
a falsy stored value is always overwritten, otherwise only by a strictly
later date. -/
def updateLast (last : Option JSDate) (d : JSDate) : Option JSDate :=
  match last with
  | none => some d
  | some ld => if !jsDateTruthy ld || jsDateGt d ld then some d else last

/-- Fresh PartyLedger as created for an unseen grouping key (part_006 lines
555-564). -/
def newLedger (pid name : String) (cat : Cat) : Ledger :=
  { id := pid, name := name, ledgerCategory := cat,
    typeLabel := if cat = .SU then "SUPPLIER" else "CUSTOMER",
    transactions := [], totalDebit := 0, totalCredit := 0, lastTransaction := none }

/-- One transaction appended into a ledger (part_006 lines 567-574): push the
transaction, accumulate totals (parseFloat of an already numeric debit or
credit is the number itself, and the || 0 guard only rewrites NaN), update
lastTransaction. -/
def appendTxn (t : Txn) (L : Ledger) : Ledger :=
  { L with
    transactions := L.transactions ++ [t]
    totalDebit := L.totalDebit + t.debit
    totalCredit := L.totalCredit + t.credit
    lastTransaction := updateLast L.lastTransaction t.date }

/-- Grouping key, the source's string "partyId|category". -/
def mkKey (pid : String) (c : Cat) : String :=
  pid ++ "|" ++ catStr c

/-- One iteration of the grouping loop of generateAllLedgers (part_006 lines
541-575): skip an empty partyId, classify on the upper-cased ID, skip a null
category, then create or update the ledger at the key. -/
def ledgerStep (m : List (String × Ledger)) (t : Txn) : List (String × Ledger) :=
  if t.partyId = "" then m
  else
    match determineLedgerCategory (jsUpper t.partyId) t.docType t with
    | none => m
    | some cat =>
      match lookupA m (mkKey (jsUpper t.partyId) cat) with
      | some _ => updateA m (mkKey (jsUpper t.partyId) cat) (appendTxn t)
      | none => m ++ [(mkKey (jsUpper t.partyId) cat, appendTxn t (newLedger (jsUpper t.partyId) t.partyName cat))]

/-- The grouping loop over the whole transaction set. -/
def buildLedgerMap (ts : List Txn) : List (String × Ledger) :=
  ts.foldl ledgerStep []

/-- The grouping key a transaction lands under, none when it is skipped
(empty partyId or null classification). -/
def keyOfTxn (t : Txn) : Option String :=
  if t.partyId = "" then none
  else
    match determineLedgerCategory (jsUpper t.partyId) t.docType t with
    | none => none
    | some cat => some (mkKey (jsUpper t.partyId) cat)

/-- The sub-sequence of transactions grouped under one key. -/
def txnsForKey (key : String) (ts : List Txn) : List Txn :=
  ts.filter (fun t => keyOfTxn t = some key)

/-- Induction invariant of the grouping loop: after processing a list of
transactions, the map's keys are distinct, a key absent from the map has no
grouped transaction, and each present ledger holds exactly the grouped
sub-sequence for its key with totals equal to its sums, under a key that
round-trips through its own id and category. -/
def GoodMap (m : List (String × Ledger)) (processed : List Txn) : Prop :=
  (m.map Prod.fst).Nodup ∧
  (∀ key, lookupA m key = none → txnsForKey key processed = []) ∧
  (∀ key L, lookupA m key = some L →
    L.transactions = txnsForKey key processed ∧
    L.totalDebit = ((txnsForKey key processed).map Txn.debit).sum ∧
    L.totalCredit = ((txnsForKey key processed).map Txn.credit).sum ∧
    mkKey L.id L.ledgerCategory = key)

/-- A MASTER party invoiced through the purchase register: classifies SU. -/
def masPurchase : Txn :=
  { date := .missing, partyId := "cg-mas-0001", partyName := "Master Co", docType := .PURCHASE,
    docNo := "P1", voucherType := "PURCHASE", particulars := "Purchase Invoice: P1",
    debit := 0, credit := 54000, reference := "" }

/-- The same MASTER party paid through the bank with a debit: classifies CU. -/
def masBankDebit : Txn := bankTxn "CG-MAS-0001" 50000 0

/-- A contractor bank transaction: classification is null. -/
def conBankTxn : Txn := bankTxn "CG-CON-0001" 10 0

/-- Demo input mixing the three. -/
def demoTxns : List Txn := [masPurchase, masBankDebit, conBankTxn]

/-- The SU-side ledger the demo input builds for the MASTER party. -/
def demoLedgerSU : Ledger :=
  (lookupA (buildLedgerMap demoTxns) (mkKey "CG-MAS-0001" Cat.SU)).getD
    (newLedger "NONE" "NONE" Cat.CU)

/-- The cells the totals section of a party statement writes: the TOTAL row's
debit and credit, the CLOSING BALANCE row's debit or credit cell and its
DR/CR mark in column G, and the GRAND TOTAL row's two cells. -/
structure TotalsSection where
  totalDebit : ℚ
  totalCredit : ℚ
  closingDebitCell : Option ℚ
  closingCreditCell : Option ℚ
  closingColG : String
  grandDebit : ℚ
  grandCredit : ℚ
deriving DecidableEq, Repr

/-- Model of writeTotalsSection (PartyLedger module in SETUP.md, lines
387-458): totals are accumulated over the transaction list, the closing
balance totalDebit - totalCredit lands as its absolute value in the DEBIT
column with the literal DR in column G when non-negative and in the CREDIT
column with CR otherwise, and the GRAND TOTAL row carries
max(totalDebit, totalCredit) on both sides. -/
def writeTotalsSection (transactions : List Txn) : TotalsSection :=
  let totalDebit := transactions.foldl (fun a t => a + t.debit) 0
  let totalCredit := transactions.foldl (fun a t => a + t.credit) 0
  let closingBalance := totalDebit - totalCredit
  let maxTotal := max totalDebit totalCredit
  if closingBalance ≥ 0 then
    { totalDebit := totalDebit
      totalCredit := totalCredit
      closingDebitCell := some |closingBalance|
      closingCreditCell := none
      closingColG := "DR"
      grandDebit := maxTotal
      grandCredit := maxTotal }
  else
    { totalDebit := totalDebit
      totalCredit := totalCredit
      closingDebitCell := none
      closingCreditCell := some |closingBalance|
      closingColG := "CR"
      grandDebit := maxTotal
      grandCredit := maxTotal }

/-- Column-name mapping resolved from CONFIG for one source kind
(getColumnMapping, main.js lines 360-397).  A config key that is absent or
holds the empty string is none: both are falsy in getVal's guard. -/
structure ColMapping where
  date : Option String := none
  partyId : Option String := none
  partyName : Option String := none
  invoice : Option String := none
  amount : Option String := none
  gst : Option String := none
  debit : Option String := none
  credit : Option String := none
  particulars : Option String := none
  voucherType : Option String := none
  reference : Option String := none
  remarks : Option String := none
deriving DecidableEq, Repr

/-- Model of JS String.prototype.trim over the \s class. -/
def jsTrim (s : String) : String :=
  String.mk (((s.data.dropWhile isWsCh).reverse.dropWhile isWsCh).reverse)

/-- The String(h).trim().toUpperCase() normalization applied to header cells
and configured column names. -/
def normHeader (c : Cell) : String :=
  jsUpper (jsTrim (cellToString c))

/-- Model of getVal inside transformRow (main.js lines 465-471): a falsy
column name gives null; otherwise the first case-insensitive trimmed match
in the header row indexes the data row.  An index inside the header but past
the row's end reads back as an empty cell: JS yields undefined there, and
undefined and the empty string behave identically in every use getVal's
result is put to (String(x || ...) and parseNum). -/
def getVal (headers row : List Cell) (colName : Option String) : Option Cell :=
  match colName with
  | none => none
  | some cn =>
    match headers.findIdx? (fun h => normHeader h = jsUpper (jsTrim cn)) with
    | some idx => some (row.getD idx (Cell.str ""))
    | none => none

/-- JS String(v || dflt) for a possibly-null cell and a string default. -/
def jsStrOr (v : Option Cell) (dflt : String) : String :=
  match v with
  | some c => if cellTruthy c then cellToString c else dflt
  | none => dflt

/-- JS String(v1 || v2 || dflt). -/
def jsStrOr2 (v1 v2 : Option Cell) (dflt : String) : String :=
  match v1 with
  | some c => if cellTruthy c then cellToString c else jsStrOr v2 dflt
  | none => jsStrOr v2 dflt

/-- Modelled date-string parser standing in for the host's
implementation-defined Date string parsing: an ISO-like YYYY-MM-DD string
parses (to a simplified millisecond serial); every other non-empty string is
an Invalid Date.  The repository's own unit test fixes that "not a date"
fails to parse; no claim depends on which further formats succeed nor on the
exact encoded value. -/
def jsParseDate (s : String) : Option Int :=
  match s.data with
  | [y1, y2, y3, y4, '-', m1, m2, '-', d1, d2] =>
    if [y1, y2, y3, y4, m1, m2, d1, d2].all isDigitCh then
      some ((((digitsVal [y1, y2, y3, y4] : Int) * 12 + (digitsVal [m1, m2] : Int) - 1) * 31 +
        (digitsVal [d1, d2] : Int) - 1) * 86400000)
    else none
  | _ => none

/-- Semantic date of a raw cell as stored in a transaction: null and the
falsy cells are missing, date cells and parseable values carry a timestamp
(a nonzero numeric cell is a millisecond count; JS truncates where floor is
used here, immaterial to every claim), and a non-empty unparseable string is
an Invalid Date. -/
def cellToJSDate : Option Cell → JSDate
| none => .missing
| some (.str s) =>
  if s = "" then .missing
  else
    match jsParseDate s with
    | some t => .valid t
    | none => .invalid s
| some (.num q) => if q = 0 then .missing else .valid ⌊q⌋
| some (.dateCell t) => .valid t

/-- Model of transformRow (main.js lines 464-506, identical in part_006 lines
475-517): build the standardized record with debit and credit zeroed, then
route amounts by source kind: PURCHASE puts the mapped amount column into
credit, SALES puts it into debit, BANK reads its mapped debit and credit
columns directly; PURCHASE and SALES also synthesize particulars when
blank. -/
def transformRow (row headers : List Cell) (mapping : ColMapping) (sourceType : SourceType) : Txn :=
  let base : Txn := {
    date := cellToJSDate (getVal headers row mapping.date)
    partyId := jsStrOr (getVal headers row mapping.partyId) ""
    partyName := jsStrOr (getVal headers row mapping.partyName) ""
    docType := sourceType
    docNo := jsStrOr2 (getVal headers row mapping.invoice) (getVal headers row mapping.reference) ""
    voucherType := jsStrOr (getVal headers row mapping.voucherType) (sourceTypeName sourceType)
    particulars := jsStrOr2 (getVal headers row mapping.particulars) (getVal headers row mapping.remarks) ""
    debit := 0
    credit := 0
    reference := jsStrOr (getVal headers row mapping.reference) "" }
  match sourceType with
  | .PURCHASE =>
    { base with
      credit := parseNumCell (getVal headers row mapping.amount)
      particulars := if base.particulars = "" then "Purchase Invoice: " ++ base.docNo else base.particulars }
  | .SALES =>
    { base with
      debit := parseNumCell (getVal headers row mapping.amount)
      particulars := if base.particulars = "" then "Sales Invoice: " ++ base.docNo else base.particulars }
  | .BANK =>
    { base with
      debit := parseNumCell (getVal headers row mapping.debit)
      credit := parseNumCell (getVal headers row mapping.credit) }

/-- Single-column mapping used in the routing examples. -/
def amountOnlyMapping : ColMapping := { amount := some "AMOUNT" }

/-- Debit/credit mapping used in the bank routing example. -/
def bankColsMapping : ColMapping := { debit := some "DEBIT", credit := some "CREDIT" }

/-- Expected column names per source kind (detectHeaderRow, main.js lines
407-411). -/
def keyColumns : SourceType → List String
| .PURCHASE => ["L/F", "SUPPLIER NAME", "INVOICE NO", "GRAND TOTAL"]
| .SALES => ["L/F", "CUSTOMER NAME", "INVOICE NO", "GRAND TOTAL"]
| .BANK => ["DATE", "PARTICULARS", "DEBIT", "CREDIT", "BALANCE", "L/F"]

/-- The replace(/[.\s]/g, '') cleaning applied on both sides of the tolerant
header comparison. -/
def stripDotSpace (s : String) : String :=
  String.mk (s.data.filter (fun c => !(c = '.' || isWsCh c)))

/-- Does the normalized row contain the upper-cased column name, exactly or
up to dots and spaces (main.js lines 429-432)? -/
def colFound (row : List Cell) (colUpper : String) : Bool :=
  row.any (fun cell => normHeader cell = colUpper ||
    stripDotSpace (normHeader cell) = stripDotSpace colUpper)

/-- How many of the expected columns the row matches. -/
def matchCountRow (row : List Cell) (cols : List String) : Nat :=
  (cols.filter (fun col => colFound row (jsUpper col))).length

/-- Was the anchor column L/F among the matches? -/
def hasLFRow (row : List Cell) (cols : List String) : Bool :=
  cols.any (fun col => jsUpper col = "L/F" && colFound row (jsUpper col))

/-- Acceptance test of the scan (main.js line 440): the anchor plus at least
one other expected column, or three or more matches. -/
def acceptRow (row : List Cell) (cols : List String) : Bool :=
  (hasLFRow row cols && matchCountRow row cols ≥ 2) || matchCountRow row cols ≥ 3

/-- The fallback test (main.js lines 447-456): a cell that is literally L/F
after trimming and upper-casing. -/
def rowHasLiteralLF (row : List Cell) : Bool :=
  row.any (fun cell => normHeader cell = "L/F")

/-- Index of the first row satisfying the test, the behavior of the source's
first-match scan loops. -/
def scanFirst (p : List Cell → Bool) : List (List Cell) → Option Nat
| [] => none
| r :: rs => if p r then some 0 else (scanFirst p rs).map (· + 1)

/-- Model of detectHeaderRow (main.js lines 405-459, identical in part_006
lines 416-470): scan at most the first 10 rows for the first accepted row;
failing that, the first of the first 10 rows containing the literal anchor;
failing that, -1. -/
def detectHeaderRow (allData : List (List Cell)) (sourceType : SourceType) : Int :=
  match scanFirst (fun row => acceptRow row (keyColumns sourceType)) (allData.take 10) with
  | some i => (i : Int)
  | none =>
    match scanFirst rowHasLiteralLF (allData.take 10) with
    | some i => (i : Int)
    | none => -1

/-- The decoy row of the spec's determinism example: only DATE and DEBIT. -/
def decoyRow : List Cell := [Cell.str "DATE", Cell.str "DEBIT"]

/-- A fully matching bank header row. -/
def fullBankHeaderRow : List Cell :=
  [Cell.str "DATE", Cell.str "PARTICULARS", Cell.str "DEBIT", Cell.str "CREDIT",
   Cell.str "BALANCE", Cell.str "L/F"]

/-- Decoy-then-full table. -/
def decoyTable : List (List Cell) := [decoyRow, fullBankHeaderRow]

/-- Stable insertion of one element: placed before the first element it
compares less-or-equal to, so an earlier-arriving element precedes equal
later ones. -/
def insertLe {α : Type} (le : α → α → Bool) (x : α) : List α → List α
| [] => [x]
| y :: ys => if le x y then x :: y :: ys else y :: insertLe le x ys

/-- Stable insertion sort.  Array.prototype.sort of the V8 host is stable
(ES2019), and on a consistent comparator every stable sort produces the same
list, so this stands for the host's sort wherever the comparator below is
consistent (and on two-element lists unconditionally). -/
def insertionSort {α : Type} (le : α → α → Bool) : List α → List α
| [] => []
| x :: xs => insertLe le x (insertionSort le xs)

/-- Comparator value of the sort callback in generateAllLedgers (part_006
lines 595-599): dateA - dateB over new Date(d || 0), where an Invalid Date
makes the subtraction NaN and the ES SortCompare step turns a NaN comparator
value into +0 (the elements compare as equal). -/
def dateCmpJS (a b : JSDate) : Int :=
  match effNum a, effNum b with
  | some x, some y => x - y
  | _, _ => 0

/-- Non-positive comparator value: a sorts no later than b. -/
def txnDateLe (a b : Txn) : Bool :=
  dateCmpJS a.date b.date ≤ 0

/-- The transaction sort of generateAllLedgers (part_006 lines 594-599). -/
def sortTransactions (l : List Txn) : List Txn :=
  insertionSort txnDateLe l

/-- Modelled from the spec: the sort the claim describes, keyed by a date
value that treats unparseable and missing dates alike as epoch-zero,
stable.  Kept separate from sortTransactions so the two can be compared. -/
def specDateKey : JSDate → Int
| .missing => 0
| .valid t => t
| .invalid _ => 0

/-- Modelled from the spec: stable sort by specDateKey. -/
def specSortTransactions (l : List Txn) : List Txn :=
  insertionSort (fun a b => specDateKey a.date ≤ specDateKey b.date) l

/-- Is the stored date an Invalid-Date string? -/
def isInvalidDate : JSDate → Bool
| .invalid _ => true
| _ => false

/-- Key-based comparator. -/
def keyLe {α : Type} (k : α → Int) (a b : α) : Bool :=
  k a ≤ k b

/-- A transaction dated one day after the epoch. -/
def datedTxn : Txn := { bankTxn "CG-SUP-0001" 1 0 with date := JSDate.valid 86400000 }

/-- A transaction whose date cell held the unparseable text of the
repository's own parse-failure test. -/
def invalidDateTxn : Txn := { bankTxn "CG-SUP-0002" 2 0 with date := JSDate.invalid "NOT A DATE" }

/-- Code-point lexicographic comparison of character lists: the model used
for localeCompare on the index names.  localeCompare's exact collation is
host-locale dependent; the claims' structural content (a total name order,
ascending, distinguishing case) is proved against this fixed case-sensitive
order. -/
def lexLeChars : List Char → List Char → Bool
| [], _ => true
| _ :: _, [] => false
| a :: as2, b :: bs =>
  if a.toNat < b.toNat then true
  else if b.toNat < a.toNat then false
  else lexLeChars as2 bs

/-- Name comparison of the index sort. -/
def nameLe (a b : String) : Bool :=
  lexLeChars a.data b.data

/-- Non-positive comparator of updateLedgerMasterIndex's sort (SETUP.md lines
499-506): differing categories put SU first; equal categories order by name
ascending (the || '' guard on the names is the identity on these string
fields). -/
def ledgerLe (a b : Ledger) : Bool :=
  if a.ledgerCategory ≠ b.ledgerCategory then a.ledgerCategory = Cat.SU
  else nameLe a.name b.name

/-- The index sort. -/
def sortLedgers (ledgers : List Ledger) : List Ledger :=
  insertionSort ledgerLe ledgers

/-- One written row of the Ledger Master index (SETUP.md lines 509-523):
party ID, name, bracketed category label, total debit, total credit,
balance, last-transaction date.  The trailing hyperlink cell depends on a
sink-assigned sheet identifier and is not modelled. -/
structure IndexRow where
  rowId : String
  rowName : String
  catLabel : String
  rowDebit : ℚ
  rowCredit : ℚ
  balance : ℚ
  lastTx : Option JSDate
deriving DecidableEq, Repr

/-- The row built for one ledger. -/
def mkIndexRow (L : Ledger) : IndexRow :=
  { rowId := L.id
    rowName := L.name
    catLabel := "[" ++ catStr L.ledgerCategory ++ "]"
    rowDebit := L.totalDebit
    rowCredit := L.totalCredit
    balance := L.totalDebit - L.totalCredit
    lastTx := L.lastTransaction }

/-- Model of updateLedgerMasterIndex (SETUP.md lines 480-543) restricted to
the data it writes: on an empty ledger set it writes a single informational
placeholder instead of rows (returned as the empty row list here), otherwise
one row per ledger in sorted order. -/
def updateLedgerMasterIndexRows (ledgers : List Ledger) : List IndexRow :=
  if ledgers.length = 0 then []
  else (sortLedgers ledgers).map mkIndexRow

/-- A source workbook: named tabs in tab order, each holding a raw table. -/
structure Workbook where
  tabs : List (String × List (List Cell))

/-- The external spreadsheet host: workbooks by identifier.  openById on an
unknown identifier raises, modelled by a failed lookup. -/
structure Env where
  workbooks : List (String × Workbook)

/-- The configuration slice the fetchers read: per-source sheet identifier
and tab name (an absent or empty-string value is none: both are falsy in
the source's guards) and the per-source column mappings. -/
structure Config where
  sheetId : SourceType → Option String
  sheetName : SourceType → Option String
  colMapping : SourceType → ColMapping

/-- Status values of the per-source fetch result object. -/
inductive FetchStatus where
| pending
| SUCCESS
| ERROR
| SKIPPED
deriving DecidableEq, Repr

/-- The per-source fetch result object of fetchSourceData. -/
structure FetchResult where
  data : List Txn
  rows : Nat
  status : FetchStatus
  error : Option String
deriving DecidableEq, Repr

/-- SpreadsheetApp.openById: a missing workbook raises. -/
def openById (env : Env) (id : String) : Except String Workbook :=
  match lookupA env.workbooks id with
  | some wb => Except.ok wb
  | none => Except.error ("No item with the given ID could be found: " ++ id)

/-- The try-block body of fetchSourceData (main.js lines 299-345): open the
workbook, find the tab (getSheetByName of a missing or unset name gives
null, which the code turns into a thrown error), short data returns an
empty SUCCESS, a failed header detection throws, and otherwise non-empty
rows after the header are transformed. -/
def fetchBody (env : Env) (cfg : Config) (st : SourceType) (sid : String) :
    Except String FetchResult :=
  match openById env sid with
  | .error e => .error e
  | .ok wb =>
    match (cfg.sheetName st).bind (lookupA wb.tabs) with
    | none =>
      .error ("Tab \"" ++ (cfg.sheetName st).getD "undefined" ++ "\" not found in source sheet")
    | some allData =>
      if allData.length < 2 then
        Except.ok { data := [], rows := 0, status := .SUCCESS, error := none }
      else if detectHeaderRow allData st = -1 then
        Except.error "Could not detect header row. Looking for \"L/F\" column."
      else
        let headers := allData.getD (detectHeaderRow allData st).toNat []
        let dataRows := allData.drop ((detectHeaderRow allData st).toNat + 1)
        let txns := (dataRows.filter (fun r => r.any (fun c => c ≠ Cell.str ""))).map
          (fun r => transformRow r headers (cfg.colMapping st) st)
        Except.ok { data := txns, rows := txns.length, status := .SUCCESS, error := none }

/-- Model of fetchSourceData (main.js lines 296-354): an unset sheet
identifier is SKIPPED, any failure of the body is caught and converted to
an ERROR result carrying the message, success passes the body's result
through. -/
def fetchSourceData (env : Env) (cfg : Config) (st : SourceType) : FetchResult :=
  match cfg.sheetId st with
  | none => { data := [], rows := 0, status := .SKIPPED, error := some "Not configured" }
  | some sid =>
    match fetchBody env cfg st sid with
    | .ok r => r
    | .error msg => { data := [], rows := 0, status := .ERROR, error := some msg }

/-- The fixed bank schema looked for in row 5 of every tab. -/
def bankSchemaHeaders : List String :=
  ["DATE", "PARTICULARS", "DEBIT", "CREDIT", "BALANCE", "L/F"]

/-- A 13-column read of a row, blank-padded, the shape of the source's
getRange(.., 1, .., 13) reads. -/
def padRow13 (r : List Cell) : List Cell :=
  (r ++ List.replicate 13 (Cell.str "")).take 13

/-- Does row 5 of the tab carry the bank schema in its first six columns
(part_006 lines 999-1005)? -/
def bankSheetQualifies (rows : List (List Cell)) : Bool :=
  let headers := (padRow13 (rows.getD 4 [])).map normHeader
  (List.range 6).all (fun i => headers.getD i "" = bankSchemaHeaders.getD i "")

/-- The data region of a bank tab: rows 6 through the last row, 13 columns
wide (getLastRow is the table's height in this model). -/
def bankDataRows (rows : List (List Cell)) : List (List Cell) :=
  (rows.drop 5).map padRow13

/-- The transaction built from one bank data row (part_006 lines 1016-1027):
fixed column positions, amounts through parseNumericValue, party ID from
column 6 trimmed. -/
def mkBankTxn (r : List Cell) : Txn :=
  { date := cellToJSDate (some (r.getD 0 (Cell.str "")))
    partyId := jsTrim (jsStrOr (some (r.getD 5 (Cell.str ""))) "")
    partyName := jsStrOr (some (r.getD 6 (Cell.str ""))) ""
    docType := .BANK
    docNo := jsStrOr (some (r.getD 9 (Cell.str ""))) ""
    voucherType := jsStrOr (some (r.getD 8 (Cell.str ""))) "BANK"
    particulars := jsStrOr (some (r.getD 1 (Cell.str ""))) ""
    debit := parseNumericValue (r.getD 2 (Cell.str ""))
    credit := parseNumericValue (r.getD 3 (Cell.str ""))
    reference := jsStrOr (some (r.getD 9 (Cell.str ""))) "" }

/-- The row loop of fetchBankDataAllTabs (part_006 lines 1013-1028): a row
whose first cell is falsy is skipped, every other row emits a transaction. -/
def bankRowsToTxns : List (List Cell) → List Txn
| [] => []
| r :: rs =>
  (if cellTruthy (r.getD 0 (Cell.str "")) then [mkBankTxn r] else []) ++ bankRowsToTxns rs

/-- The sheet loop of fetchBankDataAllTabs (part_006 lines 997-1032): a tab
contributes only when its row 5 matches the schema and it has at least six
rows. -/
def bankSheetsToTxns : List (List (List Cell)) → List Txn
| [] => []
| rows :: rest =>
  (if bankSheetQualifies rows && decide (6 ≤ rows.length) then
    bankRowsToTxns (bankDataRows rows)
  else []) ++ bankSheetsToTxns rest

/-- Model of fetchBankDataAllTabs (part_006 lines 987-1038): unset bank
identifier or a failed open yield the empty list (the catch), otherwise all
tabs are scanned in order. -/
def fetchBankDataAllTabs (env : Env) (cfg : Config) : List Txn :=
  match cfg.sheetId .BANK with
  | none => []
  | some bid =>
    match lookupA env.workbooks bid with
    | none => []
    | some wb => bankSheetsToTxns (wb.tabs.map Prod.snd)

/-- The untouched pending slot of refreshData's result object. -/
def pendingFetch : FetchResult :=
  { data := [], rows := 0, status := .pending, error := none }

/-- Ledger-generation result slot. -/
structure GenResult where
  count : Nat
  status : FetchStatus
  error : Option String
deriving DecidableEq, Repr

/-- The untouched pending ledgers slot. -/
def pendingGen : GenResult :=
  { count := 0, status := .pending, error := none }

/-- Ledger generation as refreshData reports it: generateAllLedgers counts
one per grouped ledger and reports SUCCESS; contact enrichment and the
per-party sheet rendering are external writes outside this model (a render
failure would surface as this slot's ERROR). -/
def generateLedgersResult (txns : List Txn) : GenResult :=
  { count := (buildLedgerMap txns).length, status := .SUCCESS, error := none }

/-- The refresh run's result object. -/
structure RefreshResult where
  purchase : FetchResult
  sales : FetchResult
  bankData : List Txn
  bankRows : Nat
  ledgers : GenResult
deriving DecidableEq, Repr

/-- Data path of refreshData (main.js lines 213-288): each configured source
is fetched independently (fetchSourceData never raises), bank through the
all-tabs fetch, then ledger generation over the concatenation of whatever
data the sources produced. -/
def refreshData (env : Env) (cfg : Config) : RefreshResult :=
  let p := if (cfg.sheetId .PURCHASE).isSome then fetchSourceData env cfg .PURCHASE else pendingFetch
  let s := if (cfg.sheetId .SALES).isSome then fetchSourceData env cfg .SALES else pendingFetch
  let b := if (cfg.sheetId .BANK).isSome then fetchBankDataAllTabs env cfg else []
  let allTxns := p.data ++ s.data ++ b
  { purchase := p
    sales := s
    bankData := b
    bankRows := b.length
    ledgers := if allTxns.length > 0 then generateLedgersResult allTxns else pendingGen }

/-- Sales source table for the containment demo: header row then one row. -/
def demoSalesTable : List (List Cell) :=
  [[Cell.str "L/F", Cell.str "CUSTOMER NAME", Cell.str "INVOICE NO", Cell.str "GRAND TOTAL"],
   [Cell.str "CG-CUS-0001", Cell.str "Customer One", Cell.str "INV1", Cell.num 500]]

/-- Sales column mapping of the demo configuration. -/
def demoSalesMapping : ColMapping :=
  { partyId := some "L/F", partyName := some "CUSTOMER NAME",
    invoice := some "INVOICE NO", amount := some "GRAND TOTAL" }

/-- Host with one workbook holding only the Sales tab: the configured
Purchases tab is missing, so the purchase fetch fails. -/
def demoEnvC8 : Env :=
  { workbooks := [("SRC", { tabs := [("Sales", demoSalesTable)] })] }

/-- Demo configuration: purchase and sales both point at the workbook, bank
is not configured. -/
def demoCfgC8 : Config :=
  { sheetId := fun st =>
      match st with
      | .PURCHASE => some "SRC"
      | .SALES => some "SRC"
      | .BANK => none
    sheetName := fun st =>
      match st with
      | .PURCHASE => some "Purchases"
      | .SALES => some "Sales"
      | .BANK => none
    colMapping := fun st =>
      match st with
      | .SALES => demoSalesMapping
      | _ => {} }

/-- Claim C10, counterexample input: a bank data row whose DATE cell holds
the number 0 - a non-empty cell - alongside populated particulars, debit and
party-ID cells. -/
def zeroDateRow : List Cell :=
  [Cell.num 0, Cell.str "PAYMENT", Cell.num 5, Cell.num 0, Cell.str "", Cell.str "CG-SUP-0001"]

/-- A bank tab: four filler rows, the schema in row 5, the zero-date data
row in row 6. -/
def zeroDateBankTab : List (List Cell) :=
  [[], [], [], [], fullBankHeaderRow, zeroDateRow]

/-- Host holding the one-tab bank workbook. -/
def zeroDateEnv : Env :=
  { workbooks := [("BANKBOOK", { tabs := [("Tab1", zeroDateBankTab)] })] }

/-- Configuration pointing the bank source at it. -/
def zeroDateCfg : Config :=
  { sheetId := fun st =>
      match st with
      | .BANK => some "BANKBOOK"
      | _ => none
    sheetName := fun _ => none
    colMapping := fun _ => {} }

theorem stripCurrency_data (s : String) :
    (stripCurrency s).data = s.data.filter (fun c => !isStrippedChar c) := rfl

theorem isWsCh_eq_false_of_isDigitCh {c : Char} (h : isDigitCh c = true) :
    isWsCh c = false := by
  simp only [isDigitCh, Bool.and_eq_true, decide_eq_true_eq] at h
  simp only [isWsCh, Bool.or_eq_false_iff, decide_eq_false_iff_not]
  omega

theorem takeWhile_append_all {p : Char → Bool} {l : List Char} (r : List Char)
    (h : ∀ c ∈ l, p c = true) :
    (l ++ r).takeWhile p = l ++ r.takeWhile p := by
  induction l with
  | nil => simp
  | cons a t ih =>
    have ha : p a = true := h a (by simp)
    simp [List.cons_append, List.takeWhile_cons, ha, ih fun c hc => h c (by simp [hc])]

theorem dropWhile_append_all {p : Char → Bool} {l : List Char} (r : List Char)
    (h : ∀ c ∈ l, p c = true) :
    (l ++ r).dropWhile p = r.dropWhile p := by
  induction l with
  | nil => simp
  | cons a t ih =>
    have ha : p a = true := h a (by simp)
    simp only [List.cons_append, List.dropWhile_cons, ha, if_true,
      ih fun c hc => h c (by simp [hc])]

theorem takeWhile_cons_false {p : Char → Bool} {a : Char} (l : List Char)
    (h : p a = false) : (a :: l).takeWhile p = [] := by
  simp [List.takeWhile_cons, h]

theorem dropWhile_cons_false {p : Char → Bool} {a : Char} (l : List Char)
    (h : p a = false) : (a :: l).dropWhile p = a :: l := by
  simp [List.dropWhile_cons, h]

theorem takeWhile_all {p : Char → Bool} {l : List Char}
    (h : ∀ c ∈ l, p c = true) : l.takeWhile p = l := by
  have h2 := @takeWhile_append_all p l [] h
  simpa using h2

theorem dropWhile_all {p : Char → Bool} {l : List Char}
    (h : ∀ c ∈ l, p c = true) : l.dropWhile p = [] := by
  have h2 := @dropWhile_append_all p l [] h
  simpa using h2

theorem digit_ne_of_not_digit {a c : Char} (h : isDigitCh a = true)
    (hc : isDigitCh c = false) : a ≠ c := by
  intro he
  rw [he, hc] at h
  exact Bool.false_ne_true h

theorem splitSign_of_digit {a : Char} (r : List Char) (h : isDigitCh a = true) :
    splitSign (a :: r) = (1, a :: r) := by
  have hm : a ≠ '-' := digit_ne_of_not_digit h (by decide)
  have hp : a ≠ '+' := digit_ne_of_not_digit h (by decide)
  simp [splitSign, hm, hp]

theorem parseFloatQ_decimal (ds fs : List Char)
    (h1 : ds ≠ [] ∨ fs ≠ [])
    (h2 : ∀ c ∈ ds, isDigitCh c = true)
    (h3 : ∀ c ∈ fs, isDigitCh c = true) :
    parseFloatQ (String.mk (ds ++ '.' :: fs)) =
      some ((digitsVal ds : ℚ) + (digitsVal fs : ℚ) / pow10 fs.length) := by
  have hdot : isDigitCh '.' = false := by decide
  have hws : (ds ++ '.' :: fs).dropWhile isWsCh = ds ++ '.' :: fs := by
    cases ds with
    | nil => simpa using dropWhile_cons_false fs (show isWsCh '.' = false by decide)
    | cons a t =>
      have ha : isWsCh a = false := isWsCh_eq_false_of_isDigitCh (h2 a (by simp))
      simpa using dropWhile_cons_false (t ++ '.' :: fs) ha
  have hsign : splitSign (ds ++ '.' :: fs) = (1, ds ++ '.' :: fs) := by
    cases ds with
    | nil => simp [splitSign]
    | cons a t => simpa using splitSign_of_digit (t ++ '.' :: fs) (h2 a (by simp))
  have hip : (ds ++ '.' :: fs).takeWhile isDigitCh = ds := by
    rw [takeWhile_append_all _ h2, takeWhile_cons_false fs hdot, List.append_nil]
  have hrest : (ds ++ '.' :: fs).dropWhile isDigitCh = '.' :: fs := by
    rw [dropWhile_append_all _ h2, dropWhile_cons_false fs hdot]
  have hfrac : splitFrac ('.' :: fs) = (fs, []) := by
    simp [splitFrac, takeWhile_all h3, dropWhile_all h3]
  have hcond : (decide (ds = []) && decide (fs = [])) = false := by
    rcases h1 with h | h <;> simp [h]
  have hq : qpow10 (splitExp []) = 1 := by simp [splitExp, qpow10, pow10]
  simp only [parseFloatQ, show (String.mk (ds ++ '.' :: fs)).data = ds ++ '.' :: fs from rfl,
    hws, hsign, hip, hrest, hfrac, hcond, hq, Bool.false_eq_true, if_false]
  ring_nf

theorem parseFloatQ_intString (ds : List Char) (h0 : ds ≠ [])
    (h2 : ∀ c ∈ ds, isDigitCh c = true) :
    parseFloatQ (String.mk ds) = some (digitsVal ds : ℚ) := by
  have hws : ds.dropWhile isWsCh = ds := by
    cases ds with
    | nil => simp
    | cons a t =>
      have ha : isWsCh a = false := isWsCh_eq_false_of_isDigitCh (h2 a (by simp))
      simpa using dropWhile_cons_false t ha
  have hsign : splitSign ds = (1, ds) := by
    cases ds with
    | nil => exact absurd rfl h0
    | cons a t => exact splitSign_of_digit t (h2 a (by simp))
  have hip : ds.takeWhile isDigitCh = ds := takeWhile_all h2
  have hrest : ds.dropWhile isDigitCh = [] := dropWhile_all h2
  have hcond : (decide (ds = []) && decide (([] : List Char) = [])) = false := by
    simp [h0]
  have hq : qpow10 (splitExp []) = 1 := by simp [splitExp, qpow10, pow10]
  have hfrac : splitFrac ([] : List Char) = ([], []) := rfl
  simp only [parseFloatQ, show (String.mk ds).data = ds from rfl,
    hws, hsign, hip, hrest, hfrac, hcond, hq, Bool.false_eq_true, if_false]
  simp [digitsVal, pow10, h0]

/-- Claim C5, counterexample.  The cleaning regex [₹$,\s] strips only the
rupee and dollar signs, not every currency symbol: the euro-formatted input
"€100" is left unparseable, so parseNumericValue returns 0 where the claim
("strips all currency symbols ... and returns the exact numeric value")
demands 100. -/
theorem claimC5_counterexample :
    parseNumericValue (Cell.str "€100") = 0 ∧ (0 : ℚ) ≠ (100 : ℚ) := by
  constructor
  · decide
  · norm_num

/-- Claim C5, amended.  parseNumericValue / parseNum strips the currency
symbols ₹ and $, comma grouping separators at any grouping width, and
whitespace, and recovers the exact numeric value of any decimal input that
cleans up to digits with an optional fraction; for null, empty or
unparseable input (including inputs carrying any other currency symbol) it
returns 0 and never throws. -/
theorem claimC5_thm :
    (∀ (raw : String) (ds fs : List Char), ds ≠ [] ∨ fs ≠ [] →
      (∀ c ∈ ds, isDigitCh c = true) → (∀ c ∈ fs, isDigitCh c = true) →
      (stripCurrency raw).data = ds ++ '.' :: fs →
      parseNumericValue (.str raw) = (digitsVal ds : ℚ) + (digitsVal fs : ℚ) / pow10 fs.length) ∧
    (∀ (raw : String) (ds : List Char), ds ≠ [] →
      (∀ c ∈ ds, isDigitCh c = true) →
      (stripCurrency raw).data = ds →
      parseNumericValue (.str raw) = (digitsVal ds : ℚ)) ∧
    parseNumCell none = 0 ∧
    parseNumericValue (.str "") = 0 ∧
    (∀ s : String, parseFloatQ (stripCurrency s) = none → parseNumericValue (.str s) = 0) := by
  have hstr : ∀ s : String, s ≠ "" →
      parseNumericValue (.str s) = (parseFloatQ (stripCurrency s)).getD 0 := by
    intro s hs
    simp [parseNumericValue, cellTruthy, hs, cellToString]
  refine ⟨?dec, ?int, rfl, by decide, ?bad⟩
  · intro raw ds fs h1 h2 h3 hstrip
    have hraw : raw ≠ "" := by
      intro he
      rw [he] at hstrip
      simp [stripCurrency] at hstrip
    have hs : stripCurrency raw = String.mk (ds ++ '.' :: fs) := congrArg String.mk hstrip
    rw [hstr raw hraw, hs, parseFloatQ_decimal ds fs h1 h2 h3]
    rfl
  · intro raw ds h0 h2 hstrip
    have hraw : raw ≠ "" := by
      intro he
      rw [he] at hstrip
      simp [stripCurrency] at hstrip
      exact h0 hstrip
    have hs : stripCurrency raw = String.mk ds := congrArg String.mk hstrip
    rw [hstr raw hraw, hs, parseFloatQ_intString ds h0 h2]
    rfl
  · intro s h
    by_cases hs : s = ""
    · rw [hs]; decide
    · rw [hstr s hs, h]; rfl

/-- Claim C5, witness: the spec's own examples under the amended statement. -/
theorem claimC5_witness :
    parseNumericValue (.str "₹2,00,000.00") = 200000 ∧
    parseNumericValue (.str "") = 0 ∧ parseNumCell none = 0 := by
  refine ⟨?ex, claimC5_thm.2.2.2.1, claimC5_thm.2.2.1⟩
  have h := claimC5_thm.1 "₹2,00,000.00" "200000".data "00".data
    (by decide) (by decide) (by decide) (by decide)
  rw [h]
  have h1 : digitsVal "200000".data = 200000 := by decide
  have h2 : digitsVal "00".data = 0 := by decide
  have h3 : ("00".data).length = 2 := by decide
  rw [h1, h2, h3]
  norm_num [pow10]

/-- Claim C1, confirmed.  determineLedgerCategory returns SU for every
PURCHASE and CU for every SALES transaction regardless of partyId; for BANK
it follows the token rules in the source's priority order: -SUP- gives SU;
then -CUS-, -REN- and -DEA- give CU; then -CON- gives null; then -MAS- inspects
the transaction, credit > 0 giving SU, else debit > 0 giving CU, else
falling through to the default; any unresolved BANK transaction defaults
to CU. -/
theorem claimC1_thm :
    (∀ pid txn, determineLedgerCategory pid .PURCHASE txn = some .SU) ∧
    (∀ pid txn, determineLedgerCategory pid .SALES txn = some .CU) ∧
    (∀ pid txn, strIncludes pid "-SUP-" = true →
      determineLedgerCategory pid .BANK txn = some .SU) ∧
    (∀ pid txn, strIncludes pid "-SUP-" = false →
      (strIncludes pid "-CUS-" || strIncludes pid "-REN-" || strIncludes pid "-DEA-") = true →
      determineLedgerCategory pid .BANK txn = some .CU) ∧
    (∀ pid txn, strIncludes pid "-SUP-" = false →
      (strIncludes pid "-CUS-" || strIncludes pid "-REN-" || strIncludes pid "-DEA-") = false →
      strIncludes pid "-CON-" = true →
      determineLedgerCategory pid .BANK txn = none) ∧
    (∀ pid txn, strIncludes pid "-SUP-" = false →
      (strIncludes pid "-CUS-" || strIncludes pid "-REN-" || strIncludes pid "-DEA-") = false →
      strIncludes pid "-CON-" = false → strIncludes pid "-MAS-" = true →
      txn.credit > 0 →
      determineLedgerCategory pid .BANK txn = some .SU) ∧
    (∀ pid txn, strIncludes pid "-SUP-" = false →
      (strIncludes pid "-CUS-" || strIncludes pid "-REN-" || strIncludes pid "-DEA-") = false →
      strIncludes pid "-CON-" = false → strIncludes pid "-MAS-" = true →
      ¬(txn.credit > 0) → txn.debit > 0 →
      determineLedgerCategory pid .BANK txn = some .CU) ∧
    (∀ pid txn, strIncludes pid "-SUP-" = false →
      (strIncludes pid "-CUS-" || strIncludes pid "-REN-" || strIncludes pid "-DEA-") = false →
      strIncludes pid "-CON-" = false → strIncludes pid "-MAS-" = true →
      ¬(txn.credit > 0) → ¬(txn.debit > 0) →
      determineLedgerCategory pid .BANK txn = some .CU) ∧
    (∀ pid txn, strIncludes pid "-SUP-" = false →
      (strIncludes pid "-CUS-" || strIncludes pid "-REN-" || strIncludes pid "-DEA-") = false →
      strIncludes pid "-CON-" = false → strIncludes pid "-MAS-" = false →
      determineLedgerCategory pid .BANK txn = some .CU) := by
  refine ⟨fun pid txn => rfl, fun pid txn => rfl, ?s3, ?s4, ?s5, ?s6, ?s7, ?s8, ?s9⟩
  · intro pid txn h1
    simp [determineLedgerCategory, h1]
  · intro pid txn h1 h2
    simp [determineLedgerCategory, h1, h2]
  · intro pid txn h1 h2 h3
    simp [determineLedgerCategory, h1, h2, h3]
  · intro pid txn h1 h2 h3 h4 h5
    simp [determineLedgerCategory, h1, h2, h3, h4, h5]
  · intro pid txn h1 h2 h3 h4 h5 h6
    simp [determineLedgerCategory, h1, h2, h3, h4, h5, h6]
  · intro pid txn h1 h2 h3 h4 h5 h6
    simp [determineLedgerCategory, h1, h2, h3, h4, h5, h6]
  · intro pid txn h1 h2 h3 h4
    simp [determineLedgerCategory, h1, h2, h3, h4]

/-- Claim C1, witness: the spec's classification examples. -/
theorem claimC1_witness :
    determineLedgerCategory "CG-SUP-0001" .BANK (bankTxn "CG-SUP-0001" 0 100) = some .SU ∧
    determineLedgerCategory "CG-CON-0001" .BANK (bankTxn "CG-CON-0001" 0 0) = none ∧
    determineLedgerCategory "CG-MAS-0001" .BANK (bankTxn "CG-MAS-0001" 0 50) = some .SU ∧
    determineLedgerCategory "CG-MAS-0001" .BANK (bankTxn "CG-MAS-0001" 50 0) = some .CU ∧
    determineLedgerCategory "ANY-ID" .PURCHASE (bankTxn "ANY-ID" 0 0) = some .SU := by
  refine ⟨?w1, ?w2, ?w3, ?w4, claimC1_thm.1 "ANY-ID" (bankTxn "ANY-ID" 0 0)⟩
  · exact claimC1_thm.2.2.1 "CG-SUP-0001" (bankTxn "CG-SUP-0001" 0 100) (by decide)
  · exact claimC1_thm.2.2.2.2.1 "CG-CON-0001" (bankTxn "CG-CON-0001" 0 0)
      (by decide) (by decide) (by decide)
  · exact claimC1_thm.2.2.2.2.2.1 "CG-MAS-0001" (bankTxn "CG-MAS-0001" 0 50)
      (by decide) (by decide) (by decide) (by decide) (by norm_num [bankTxn])
  · exact claimC1_thm.2.2.2.2.2.2.1 "CG-MAS-0001" (bankTxn "CG-MAS-0001" 50 0)
      (by decide) (by decide) (by decide) (by decide) (by norm_num [bankTxn]) (by norm_num [bankTxn])

theorem lookupA_append_single {β : Type} (m : List (String × β)) (k key : String) (v : β) :
    lookupA (m ++ [(k, v)]) key =
      match lookupA m key with
      | some x => some x
      | none => if k = key then some v else none := by
  induction m with
  | nil => simp [lookupA]
  | cons e es ih =>
    by_cases he : e.1 = key
    · simp [lookupA, he]
    · simp [lookupA, he, ih]

theorem lookupA_updateA {β : Type} (m : List (String × β)) (k key : String) (f : β → β) :
    lookupA (updateA m k f) key =
      if k = key then (lookupA m key).map f else lookupA m key := by
  induction m with
  | nil => simp [lookupA, updateA]
  | cons e es ih =>
    simp only [updateA, List.map_cons] at ih ⊢
    by_cases hek : e.1 = k
    · subst hek
      by_cases hkey : e.1 = key
      · simp [lookupA, hkey, ih]
      · simp [lookupA, hkey, ih]
    · by_cases hkey2 : e.1 = key
      · have hkk : k ≠ key := fun h2 => hek (by rw [hkey2, h2])
        have hkk2 : key ≠ k := fun h2 => hkk h2.symm
        simp [lookupA, hek, hkey2, hkk, hkk2]
      · simp [lookupA, hek, hkey2, ih]

theorem updateA_keys {β : Type} (m : List (String × β)) (k : String) (f : β → β) :
    (updateA m k f).map Prod.fst = m.map Prod.fst := by
  induction m with
  | nil => rfl
  | cons e es ih =>
    simp only [updateA, List.map_cons] at ih ⊢
    by_cases hek : e.1 = k <;> simp [hek, ih]

theorem lookupA_eq_none_iff {β : Type} (m : List (String × β)) (key : String) :
    lookupA m key = none ↔ key ∉ m.map Prod.fst := by
  induction m with
  | nil => simp [lookupA]
  | cons e es ih =>
    by_cases he : e.1 = key
    · simp [lookupA, he]
    · have hne : key ≠ e.1 := fun h2 => he h2.symm
      simp [lookupA, he, ih, hne]

theorem lookupA_of_mem {β : Type} {m : List (String × β)} {e : String × β}
    (hnd : (m.map Prod.fst).Nodup) (hm : e ∈ m) : lookupA m e.1 = some e.2 := by
  induction m with
  | nil => simp at hm
  | cons a es ih =>
    rcases List.mem_cons.mp hm with he | he
    · rw [he]
      simp [lookupA]
    · have ha : a.1 ∉ es.map Prod.fst := by
        simp only [List.map_cons, List.nodup_cons] at hnd
        exact hnd.1
      have hne : a.1 ≠ e.1 := by
        intro hcontra
        exact ha (hcontra ▸ List.mem_map_of_mem Prod.fst he)
      simp only [List.map_cons, List.nodup_cons] at hnd
      simp [lookupA, hne, ih hnd.2 he]

theorem mkKey_inj {p1 p2 : String} {c1 c2 : Cat}
    (h : mkKey p1 c1 = mkKey p2 c2) : p1 = p2 ∧ c1 = c2 := by
  have hd : p1.data ++ ("|".data ++ (catStr c1).data) = p2.data ++ ("|".data ++ (catStr c2).data) := by
    have h2 := congrArg String.data h
    simpa only [mkKey, String.data_append, List.append_assoc] using h2
  have hlen : p1.data.length = p2.data.length := by
    have h3 := congrArg List.length hd
    have hc1 : (catStr c1).data.length = 2 := by cases c1 <;> rfl
    have hc2 : (catStr c2).data.length = 2 := by cases c2 <;> rfl
    have hb : ("|".data).length = 1 := rfl
    simp only [List.length_append, hc1, hc2, hb] at h3
    omega
  obtain ⟨hp, ht⟩ := List.append_inj hd hlen
  refine ⟨congrArg String.mk hp, ?hc⟩
  have ht2 : (catStr c1).data = (catStr c2).data := List.append_cancel_left ht
  cases c1 <;> cases c2 <;> first | rfl | exact absurd ht2 (by decide)

theorem txnsForKey_snoc (key : String) (ts : List Txn) (t : Txn) :
    txnsForKey key (ts ++ [t]) =
      txnsForKey key ts ++ (if keyOfTxn t = some key then [t] else []) := by
  by_cases hk : keyOfTxn t = some key <;>
    simp [txnsForKey, List.filter_append, hk]

theorem goodMap_skip {m : List (String × Ledger)} {processed : List Txn} {t : Txn}
    (H : GoodMap m processed) (hkt : keyOfTxn t = none) :
    GoodMap m (processed ++ [t]) := by
  obtain ⟨hnd, hnone, hsome⟩ := H
  have hsnoc : ∀ key, txnsForKey key (processed ++ [t]) = txnsForKey key processed := by
    intro key
    rw [txnsForKey_snoc]
    simp [hkt]
  refine ⟨hnd, ?n, ?s⟩
  · intro key hk
    rw [hsnoc key]
    exact hnone key hk
  · intro key L hk
    rw [hsnoc key]
    exact hsome key L hk

theorem goodMap_step {m : List (String × Ledger)} {processed : List Txn} (t : Txn)
    (H : GoodMap m processed) : GoodMap (ledgerStep m t) (processed ++ [t]) := by
  by_cases hpid : t.partyId = ""
  · have hstep : ledgerStep m t = m := by simp [ledgerStep, hpid]
    have hkt : keyOfTxn t = none := by simp [keyOfTxn, hpid]
    rw [hstep]
    exact goodMap_skip H hkt
  rcases hcat : determineLedgerCategory (jsUpper t.partyId) t.docType t with _ | cat
  · have hstep : ledgerStep m t = m := by simp [ledgerStep, hpid, hcat]
    have hkt : keyOfTxn t = none := by simp [keyOfTxn, hpid, hcat]
    rw [hstep]
    exact goodMap_skip H hkt
  obtain ⟨hnd, hnone, hsome⟩ := H
  have hkt : keyOfTxn t = some (mkKey (jsUpper t.partyId) cat) := by
    simp [keyOfTxn, hpid, hcat]
  rcases hlk : lookupA m (mkKey (jsUpper t.partyId) cat) with _ | L0
  · -- fresh key: the new ledger is appended at the end of the map
    have hstep : ledgerStep m t =
        m ++ [(mkKey (jsUpper t.partyId) cat,
               appendTxn t (newLedger (jsUpper t.partyId) t.partyName cat))] := by
      simp [ledgerStep, hpid, hcat, hlk]
    rw [hstep]
    have hk0 : mkKey (jsUpper t.partyId) cat ∉ m.map Prod.fst :=
      (lookupA_eq_none_iff m _).mp hlk
    refine ⟨?_, ?_, ?_⟩
    · simp [List.nodup_append, hnd, hk0]
    · intro key hk
      rw [lookupA_append_single] at hk
      rcases hmk : lookupA m key with _ | x
      · rw [hmk] at hk
        by_cases hkey : mkKey (jsUpper t.partyId) cat = key
        · simp [hkey] at hk
        · rw [txnsForKey_snoc]
          have hne : keyOfTxn t ≠ some key := by rw [hkt]; simpa using hkey
          simp [hne, hnone key hmk]
      · rw [hmk] at hk
        simp at hk
    · intro key L hk
      rw [lookupA_append_single] at hk
      rcases hmk : lookupA m key with _ | x
      · rw [hmk] at hk
        by_cases hkey : mkKey (jsUpper t.partyId) cat = key
        · simp only [hkey, if_true] at hk
          obtain rfl : appendTxn t (newLedger (jsUpper t.partyId) t.partyName cat) = L :=
            Option.some.inj hk
          have hempty : txnsForKey key processed = [] := hnone key hmk
          have hkey2 : keyOfTxn t = some key := by rw [hkt, hkey]
          rw [txnsForKey_snoc, hempty]
          simp [hkey2, appendTxn, newLedger, ← hkey]
        · simp [hkey] at hk
      · rw [hmk] at hk
        simp only at hk
        obtain rfl : x = L := Option.some.inj hk
        have hne : keyOfTxn t ≠ some key := by
          rw [hkt]
          intro hcontra
          have hkeq := Option.some.inj hcontra
          rw [hkeq] at hlk
          rw [hlk] at hmk
          exact Option.noConfusion hmk
        rw [txnsForKey_snoc, if_neg hne, List.append_nil]
        exact hsome key x hmk
  · -- existing key: the ledger is updated in place
    have hstep : ledgerStep m t = updateA m (mkKey (jsUpper t.partyId) cat) (appendTxn t) := by
      simp [ledgerStep, hpid, hcat, hlk]
    rw [hstep]
    refine ⟨?_, ?_, ?_⟩
    · rw [updateA_keys]
      exact hnd
    · intro key hk
      rw [lookupA_updateA] at hk
      by_cases hkey : mkKey (jsUpper t.partyId) cat = key
      · rw [if_pos hkey, ← hkey, hlk] at hk
        simp at hk
      · rw [if_neg hkey] at hk
        rw [txnsForKey_snoc]
        have hne : keyOfTxn t ≠ some key := by rw [hkt]; simpa using hkey
        simp [hne, hnone key hk]
    · intro key L hk
      rw [lookupA_updateA] at hk
      by_cases hkey : mkKey (jsUpper t.partyId) cat = key
      · rw [if_pos hkey, ← hkey, hlk] at hk
        obtain rfl : appendTxn t L0 = L := by simpa using hk
        obtain ⟨h1, h2, h3, h4⟩ := hsome key L0 (hkey ▸ hlk)
        have hkey2 : keyOfTxn t = some key := by rw [hkt, hkey]
        rw [txnsForKey_snoc, if_pos hkey2]
        refine ⟨?_, ?_, ?_, ?_⟩
        · simp [appendTxn, h1]
        · simp [appendTxn, h2]
        · simp [appendTxn, h3]
        · simpa [appendTxn] using h4
      · rw [if_neg hkey] at hk
        have hne : keyOfTxn t ≠ some key := by rw [hkt]; simpa using hkey
        rw [txnsForKey_snoc, if_neg hne, List.append_nil]
        exact hsome key L hk

theorem goodMap_fold (ts : List Txn) :
    ∀ m processed, GoodMap m processed → GoodMap (ts.foldl ledgerStep m) (processed ++ ts) := by
  induction ts with
  | nil =>
    intro m p h
    simpa using h
  | cons t rest ih =>
    intro m p h
    have h2 := goodMap_step t h
    have h3 := ih _ _ h2
    simpa using h3

theorem buildLedgerMap_good (ts : List Txn) : GoodMap (buildLedgerMap ts) ts := by
  have hbase : GoodMap [] [] := by
    refine ⟨by simp, ?n, ?s⟩
    · intro key _
      rfl
    · intro key L h
      exact Option.noConfusion h
  have h := goodMap_fold ts [] [] hbase
  simpa [buildLedgerMap] using h

theorem keyOfTxn_eq_mkKey_iff (t : Txn) (pid : String) (c : Cat) :
    keyOfTxn t = some (mkKey pid c) ↔
      (t.partyId ≠ "" ∧ jsUpper t.partyId = pid ∧
       determineLedgerCategory (jsUpper t.partyId) t.docType t = some c) := by
  constructor
  · intro h
    by_cases hpid : t.partyId = ""
    · simp [keyOfTxn, hpid] at h
    · rcases hcat : determineLedgerCategory (jsUpper t.partyId) t.docType t with _ | cat
      · simp [keyOfTxn, hpid, hcat] at h
      · simp only [keyOfTxn, hpid, hcat, if_neg] at h
        have h2 : mkKey (jsUpper t.partyId) cat = mkKey pid c := by simpa [hpid] using h
        obtain ⟨hp, hc⟩ := mkKey_inj h2
        exact ⟨hpid, hp, congrArg some hc⟩
  · rintro ⟨h1, h2, h3⟩
    subst h2
    simp [keyOfTxn, h1, h3]

/-- Claim C2, confirmed.  The aggregator groups exactly the transactions with
a non-empty partyId and a non-null classification, keyed by the pair of
upper-cased partyId and ledger category (the source's string key
partyId|category is injective in that pair): a ledger found at the key of a
pair holds precisely the sub-sequence of input transactions routed to that
pair, its totals are the sums over exactly those transactions, and its
identity is the pair; a transaction whose classification is null (or whose
partyId is empty) appears in no ledger; and one party can own two distinct
ledgers, one SU and one CU, exhibited below by a MASTER party with a
purchase and a debit-side bank payment. -/
theorem claimC2_thm :
    (∀ (ts : List Txn) (pid : String) (c : Cat) (L : Ledger),
      lookupA (buildLedgerMap ts) (mkKey pid c) = some L →
      L.transactions = ts.filter (fun t => t.partyId ≠ "" ∧ jsUpper t.partyId = pid ∧
          determineLedgerCategory (jsUpper t.partyId) t.docType t = some c) ∧
      L.totalDebit = (L.transactions.map Txn.debit).sum ∧
      L.totalCredit = (L.transactions.map Txn.credit).sum ∧
      L.id = pid ∧ L.ledgerCategory = c) ∧
    (∀ (ts : List Txn) (t : Txn), keyOfTxn t = none →
      ∀ e ∈ buildLedgerMap ts, t ∉ e.2.transactions) := by
  have hfilter : ∀ (ts : List Txn) (pid : String) (c : Cat),
      txnsForKey (mkKey pid c) ts =
        ts.filter (fun t => t.partyId ≠ "" ∧ jsUpper t.partyId = pid ∧
          determineLedgerCategory (jsUpper t.partyId) t.docType t = some c) := by
    intro ts pid c
    apply List.filter_congr
    intro t _
    exact decide_eq_decide.mpr (keyOfTxn_eq_mkKey_iff t pid c)
  constructor
  · intro ts pid c L hlk
    obtain ⟨hnd, hnone, hsome⟩ := buildLedgerMap_good ts
    obtain ⟨h1, h2, h3, h4⟩ := hsome (mkKey pid c) L hlk
    obtain ⟨hid, hcat⟩ := mkKey_inj h4
    refine ⟨by rw [h1, hfilter], ?_, ?_, hid, hcat⟩
    · rw [h1, h2]
    · rw [h1, h3]
  · intro ts t hkt e he hmem
    obtain ⟨hnd, hnone, hsome⟩ := buildLedgerMap_good ts
    have hlk := lookupA_of_mem hnd he
    obtain ⟨h1, _, _, _⟩ := hsome e.1 e.2 hlk
    rw [h1] at hmem
    have hkey := (List.mem_filter.mp hmem).2
    rw [hkt] at hkey
    simp at hkey

/-- Claim C2, witness: on the demo input the map holds exactly two ledgers,
both owned by the MASTER party (one SU, one CU); the SU ledger holds exactly
the purchase transaction, and the excluded contractor transaction is in
neither ledger. -/
theorem claimC2_witness :
    (buildLedgerMap demoTxns).map Prod.fst =
      [mkKey "CG-MAS-0001" Cat.SU, mkKey "CG-MAS-0001" Cat.CU] ∧
    lookupA (buildLedgerMap demoTxns) (mkKey "CG-MAS-0001" Cat.SU) = some demoLedgerSU ∧
    demoLedgerSU.transactions = [masPurchase] ∧
    demoLedgerSU.id = "CG-MAS-0001" ∧ demoLedgerSU.ledgerCategory = Cat.SU ∧
    (∀ e ∈ buildLedgerMap demoTxns, conBankTxn ∉ e.2.transactions) := by
  have hlk : lookupA (buildLedgerMap demoTxns) (mkKey "CG-MAS-0001" Cat.SU) = some demoLedgerSU := by
    rfl
  have h := claimC2_thm.1 demoTxns "CG-MAS-0001" Cat.SU demoLedgerSU hlk
  refine ⟨by rfl, hlk, ?_, h.2.2.2.1, h.2.2.2.2, ?_⟩
  · rw [h.1]
    rfl
  · exact claimC2_thm.2 demoTxns conBankTxn (by rfl)

theorem foldl_add_eq_sum (f : Txn → ℚ) (l : List Txn) :
    ∀ a, l.foldl (fun acc t => acc + f t) a = a + (l.map f).sum := by
  induction l with
  | nil =>
    intro a
    simp
  | cons t ts ih =>
    intro a
    simp [List.foldl_cons, ih, add_assoc]

/-- Claim C3, confirmed.  The totals section computes
balance = totalDebit - totalCredit over the party's transactions; when the
balance is non-negative the CLOSING BALANCE row writes abs(balance) in the
DEBIT column and the literal DR in column G, otherwise abs(balance) in the
CREDIT column and CR in column G; and the GRAND TOTAL row writes
max(totalDebit, totalCredit) in both the DEBIT and CREDIT columns. -/
theorem claimC3_thm (txns : List Txn) :
    (writeTotalsSection txns).totalDebit = (txns.map Txn.debit).sum ∧
    (writeTotalsSection txns).totalCredit = (txns.map Txn.credit).sum ∧
    ((txns.map Txn.debit).sum - (txns.map Txn.credit).sum ≥ 0 →
      (writeTotalsSection txns).closingDebitCell =
        some |(txns.map Txn.debit).sum - (txns.map Txn.credit).sum| ∧
      (writeTotalsSection txns).closingCreditCell = none ∧
      (writeTotalsSection txns).closingColG = "DR") ∧
    ((txns.map Txn.debit).sum - (txns.map Txn.credit).sum < 0 →
      (writeTotalsSection txns).closingCreditCell =
        some |(txns.map Txn.debit).sum - (txns.map Txn.credit).sum| ∧
      (writeTotalsSection txns).closingDebitCell = none ∧
      (writeTotalsSection txns).closingColG = "CR") ∧
    (writeTotalsSection txns).grandDebit = max (txns.map Txn.debit).sum (txns.map Txn.credit).sum ∧
    (writeTotalsSection txns).grandCredit = max (txns.map Txn.debit).sum (txns.map Txn.credit).sum := by
  have hd : txns.foldl (fun a t => a + t.debit) 0 = (txns.map Txn.debit).sum := by
    rw [foldl_add_eq_sum, zero_add]
  have hc : txns.foldl (fun a t => a + t.credit) 0 = (txns.map Txn.credit).sum := by
    rw [foldl_add_eq_sum, zero_add]
  by_cases hbal : (txns.map Txn.debit).sum - (txns.map Txn.credit).sum ≥ 0
  · have hnlt : ¬((txns.map Txn.debit).sum - (txns.map Txn.credit).sum < 0) := not_lt.mpr hbal
    simp [writeTotalsSection, hd, hc, hbal, hnlt]
  · have hlt : (txns.map Txn.debit).sum - (txns.map Txn.credit).sum < 0 := not_le.mp hbal
    simp [writeTotalsSection, hd, hc, hbal, hlt]

/-- Claim C3, witness: the spec's closing-balance examples, totals 1000/600
and 600/1000. -/
theorem claimC3_witness :
    (writeTotalsSection [bankTxn "A" 1000 0, bankTxn "A" 0 600]).closingDebitCell = some 400 ∧
    (writeTotalsSection [bankTxn "A" 1000 0, bankTxn "A" 0 600]).closingColG = "DR" ∧
    (writeTotalsSection [bankTxn "B" 600 0, bankTxn "B" 0 1000]).closingCreditCell = some 400 ∧
    (writeTotalsSection [bankTxn "B" 600 0, bankTxn "B" 0 1000]).closingColG = "CR" ∧
    (writeTotalsSection [bankTxn "A" 1000 0, bankTxn "A" 0 600]).grandDebit = 1000 ∧
    (writeTotalsSection [bankTxn "A" 1000 0, bankTxn "A" 0 600]).grandCredit = 1000 := by
  have hA := claimC3_thm [bankTxn "A" 1000 0, bankTxn "A" 0 600]
  have hB := claimC3_thm [bankTxn "B" 600 0, bankTxn "B" 0 1000]
  have hdA : (List.map Txn.debit [bankTxn "A" 1000 0, bankTxn "A" 0 600]).sum = 1000 := by
    norm_num [bankTxn]
  have hcA : (List.map Txn.credit [bankTxn "A" 1000 0, bankTxn "A" 0 600]).sum = 600 := by
    norm_num [bankTxn]
  have hdB : (List.map Txn.debit [bankTxn "B" 600 0, bankTxn "B" 0 1000]).sum = 600 := by
    norm_num [bankTxn]
  have hcB : (List.map Txn.credit [bankTxn "B" 600 0, bankTxn "B" 0 1000]).sum = 1000 := by
    norm_num [bankTxn]
  rw [hdA, hcA] at hA
  rw [hdB, hcB] at hB
  have hApos := hA.2.2.1 (by norm_num)
  have hBneg := hB.2.2.2.1 (by norm_num)
  refine ⟨?_, hApos.2.2, ?_, hBneg.2.2, ?_, ?_⟩
  · rw [hApos.1]
    norm_num
  · rw [hBneg.1]
    norm_num
  · rw [hA.2.2.2.2.1]
    norm_num
  · rw [hA.2.2.2.2.2]
    norm_num

/-- Claim C4, confirmed.  For every source row: under PURCHASE the mapped
amount column populates credit and debit stays 0; under SALES it populates
debit and credit stays 0; under BANK the mapped debit and credit columns
populate the respective fields with no single-amount routing; and the
spec's concrete 500/100 examples hold. -/
theorem claimC4_thm :
    (∀ (row headers : List Cell) (mapping : ColMapping),
      (transformRow row headers mapping .PURCHASE).credit =
        parseNumCell (getVal headers row mapping.amount) ∧
      (transformRow row headers mapping .PURCHASE).debit = 0 ∧
      (transformRow row headers mapping .SALES).debit =
        parseNumCell (getVal headers row mapping.amount) ∧
      (transformRow row headers mapping .SALES).credit = 0 ∧
      (transformRow row headers mapping .BANK).debit =
        parseNumCell (getVal headers row mapping.debit) ∧
      (transformRow row headers mapping .BANK).credit =
        parseNumCell (getVal headers row mapping.credit)) ∧
    (transformRow [Cell.num 500] [Cell.str "AMOUNT"] amountOnlyMapping .PURCHASE).debit = 0 ∧
    (transformRow [Cell.num 500] [Cell.str "AMOUNT"] amountOnlyMapping .PURCHASE).credit = 500 ∧
    (transformRow [Cell.num 500] [Cell.str "AMOUNT"] amountOnlyMapping .SALES).debit = 500 ∧
    (transformRow [Cell.num 500] [Cell.str "AMOUNT"] amountOnlyMapping .SALES).credit = 0 ∧
    (transformRow [Cell.num 100, Cell.num 0] [Cell.str "DEBIT", Cell.str "CREDIT"]
      bankColsMapping .BANK).debit = 100 ∧
    (transformRow [Cell.num 100, Cell.num 0] [Cell.str "DEBIT", Cell.str "CREDIT"]
      bankColsMapping .BANK).credit = 0 := by
  refine ⟨fun row headers mapping => ⟨rfl, rfl, rfl, rfl, rfl, rfl⟩, ?_, ?_, ?_, ?_, ?_, ?_⟩
  · rfl
  · rfl
  · rfl
  · rfl
  · rfl
  · rfl

theorem scanFirst_eq_some {p : List Cell → Bool} :
    ∀ (l : List (List Cell)) (k : Nat) (r : List Cell),
      l[k]? = some r → p r = true →
      (∀ j rj, j < k → l[j]? = some rj → p rj = false) →
      scanFirst p l = some k := by
  intro l
  induction l with
  | nil =>
    intro k r hk
    simp at hk
  | cons a rest ih =>
    intro k r hk hp hmin
    cases k with
    | zero =>
      have ha : a = r := by simpa using hk
      simp [scanFirst, ha ▸ hp]
    | succ n =>
      have ha : p a = false := hmin 0 a (Nat.succ_pos n) (by simp)
      have hk2 : rest[n]? = some r := by simpa using hk
      have hmin2 : ∀ j rj, j < n → rest[j]? = some rj → p rj = false := by
        intro j rj hj hrj
        exact hmin (j + 1) rj (Nat.succ_lt_succ hj) (by simpa using hrj)
      simp [scanFirst, ha, ih n r hk2 hp hmin2]

theorem scanFirst_eq_none {p : List Cell → Bool} :
    ∀ l : List (List Cell), (∀ r ∈ l, p r = false) → scanFirst p l = none := by
  intro l
  induction l with
  | nil =>
    intro _
    rfl
  | cons a rest ih =>
    intro h
    have ha : p a = false := h a (by simp)
    simp [scanFirst, ha, ih fun r hr => h r (by simp [hr])]

/-- Claim C6, confirmed.  detectHeaderRow scans at most the first 10 rows and
returns the first index whose row carries the anchor L/F plus at least one
other expected column or matches three or more expected columns; when no row
qualifies it returns the first of the first 10 rows holding the literal L/F
anywhere, and -1 when none exists; and on a bank table whose first row is a
decoy matching only DATE and DEBIT followed by a fully matching row, it
returns the full row's index 1, not the decoy's 0. -/
theorem claimC6_thm :
    (∀ (data : List (List Cell)) (st : SourceType) (k : Nat) (rk : List Cell),
      (data.take 10)[k]? = some rk → acceptRow rk (keyColumns st) = true →
      (∀ j rj, j < k → (data.take 10)[j]? = some rj → acceptRow rj (keyColumns st) = false) →
      detectHeaderRow data st = (k : Int)) ∧
    (∀ (data : List (List Cell)) (st : SourceType),
      (∀ r ∈ data.take 10, acceptRow r (keyColumns st) = false) →
      ∀ (k : Nat) (rk : List Cell), (data.take 10)[k]? = some rk → rowHasLiteralLF rk = true →
      (∀ j rj, j < k → (data.take 10)[j]? = some rj → rowHasLiteralLF rj = false) →
      detectHeaderRow data st = (k : Int)) ∧
    (∀ (data : List (List Cell)) (st : SourceType),
      (∀ r ∈ data.take 10, acceptRow r (keyColumns st) = false ∧ rowHasLiteralLF r = false) →
      detectHeaderRow data st = -1) ∧
    detectHeaderRow decoyTable .BANK = 1 := by
  refine ⟨?_, ?_, ?_, by decide⟩
  · intro data st k rk hk hacc hmin
    rw [detectHeaderRow, scanFirst_eq_some (data.take 10) k rk hk hacc hmin]
  · intro data st hnone k rk hk hlf hmin
    rw [detectHeaderRow, scanFirst_eq_none (data.take 10) hnone,
      scanFirst_eq_some (data.take 10) k rk hk hlf hmin]
  · intro data st h
    rw [detectHeaderRow, scanFirst_eq_none (data.take 10) (fun r hr => (h r hr).1),
      scanFirst_eq_none (data.take 10) (fun r hr => (h r hr).2)]

/-- Claim C6, witness: the decoy example through the general statement. -/
theorem claimC6_witness :
    detectHeaderRow decoyTable .BANK = 1 ∧
    acceptRow decoyRow (keyColumns .BANK) = false ∧
    acceptRow fullBankHeaderRow (keyColumns .BANK) = true := by
  refine ⟨?_, by decide, by decide⟩
  refine claimC6_thm.1 decoyTable .BANK 1 fullBankHeaderRow (by decide) (by decide) ?_
  intro j rj hj hrj
  have hj0 : j = 0 := Nat.lt_one_iff.mp hj
  subst hj0
  have hr : rj = decoyRow := by
    have h2 : some decoyRow = some rj := by
      simpa [decoyTable] using hrj
    exact (Option.some.inj h2).symm
  rw [hr]
  decide

theorem insertLe_perm {α : Type} (le : α → α → Bool) (x : α) (l : List α) :
    (insertLe le x l).Perm (x :: l) := by
  induction l with
  | nil => simp [insertLe]
  | cons y ys ih =>
    by_cases hxy : le x y = true
    · simp [insertLe, hxy]
    · simp only [insertLe, hxy, Bool.false_eq_true, if_false]
      exact (List.Perm.cons y ih).trans (List.Perm.swap x y ys)

theorem insertionSort_perm {α : Type} (le : α → α → Bool) (l : List α) :
    (insertionSort le l).Perm l := by
  induction l with
  | nil => simp [insertionSort]
  | cons x xs ih =>
    exact (insertLe_perm le x (insertionSort le xs)).trans (List.Perm.cons x ih)

theorem mem_insertLe {α : Type} (le : α → α → Bool) (x a : α) (l : List α) :
    a ∈ insertLe le x l ↔ a = x ∨ a ∈ l := by
  rw [(insertLe_perm le x l).mem_iff]
  simp

theorem insertLe_congr {α : Type} {le1 le2 : α → α → Bool} (x : α) (l : List α)
    (h : ∀ b ∈ l, le1 x b = le2 x b) : insertLe le1 x l = insertLe le2 x l := by
  induction l with
  | nil => rfl
  | cons y ys ih =>
    have hy : le1 x y = le2 x y := h y (by simp)
    have ih2 := ih fun b hb => h b (by simp [hb])
    simp only [insertLe, hy, ih2]

theorem insertionSort_congr {α : Type} {le1 le2 : α → α → Bool} (l : List α)
    (h : ∀ a ∈ l, ∀ b ∈ l, le1 a b = le2 a b) : insertionSort le1 l = insertionSort le2 l := by
  induction l with
  | nil => rfl
  | cons x xs ih =>
    have ih2 := ih fun a ha => fun b hb => h a (by simp [ha]) b (by simp [hb])
    simp only [insertionSort, ih2]
    apply insertLe_congr
    intro b hb
    have hbmem : b ∈ xs := ((insertionSort_perm le2 xs).mem_iff).mp hb
    exact h x (by simp) b (by simp [hbmem])

theorem pairwise_insertLe {α : Type} {le : α → α → Bool}
    (htot : ∀ a b, le a b = true ∨ le b a = true)
    (htrans : ∀ a b c, le a b = true → le b c = true → le a c = true)
    (x : α) (l : List α) (h : l.Pairwise (fun a b => le a b = true)) :
    (insertLe le x l).Pairwise (fun a b => le a b = true) := by
  induction l with
  | nil => simp [insertLe]
  | cons y ys ih =>
    obtain ⟨hy, hys⟩ := List.pairwise_cons.mp h
    by_cases hxy : le x y = true
    · simp only [insertLe, hxy, if_true]
      refine List.pairwise_cons.mpr ⟨?_, h⟩
      intro z hz
      rcases List.mem_cons.mp hz with rfl | hz2
      · exact hxy
      · exact htrans x y z hxy (hy z hz2)
    · have hyx : le y x = true := (htot x y).resolve_left hxy
      simp only [insertLe, hxy, Bool.false_eq_true, if_false]
      refine List.pairwise_cons.mpr ⟨?_, ih hys⟩
      intro z hz
      rcases (mem_insertLe le x z ys).mp hz with rfl | hz2
      · exact hyx
      · exact hy z hz2

theorem insertionSort_pairwise {α : Type} {le : α → α → Bool}
    (htot : ∀ a b, le a b = true ∨ le b a = true)
    (htrans : ∀ a b c, le a b = true → le b c = true → le a c = true)
    (l : List α) : (insertionSort le l).Pairwise (fun a b => le a b = true) := by
  induction l with
  | nil => simp [insertionSort]
  | cons x xs ih => exact pairwise_insertLe htot htrans x (insertionSort le xs) ih

theorem filter_insertLe_key {α : Type} (k : α → Int) (x : α) (l : List α) (v : Int) :
    (insertLe (keyLe k) x l).filter (fun a => k a = v) =
      if k x = v then x :: l.filter (fun a => k a = v)
      else l.filter (fun a => k a = v) := by
  induction l with
  | nil =>
    by_cases hkx : k x = v <;> simp [insertLe, hkx]
  | cons y ys ih =>
    by_cases hxy : keyLe k x y = true
    · by_cases hkx : k x = v <;> simp [insertLe, hxy, List.filter_cons, hkx]
    · have hlt : k y < k x := by
        have h2 : ¬(k x ≤ k y) := by simpa [keyLe] using hxy
        omega
      simp only [insertLe, hxy, Bool.false_eq_true, if_false]
      by_cases hky : k y = v
      · have hkx : ¬(k x = v) := by omega
        simp [List.filter_cons, hky, hkx, ih]
      · by_cases hkx : k x = v <;> simp [List.filter_cons, hky, hkx, ih]

theorem insertionSort_key_stable {α : Type} (k : α → Int) (l : List α) (v : Int) :
    (insertionSort (keyLe k) l).filter (fun a => k a = v) = l.filter (fun a => k a = v) := by
  induction l with
  | nil => rfl
  | cons x xs ih =>
    simp only [insertionSort]
    rw [filter_insertLe_key]
    by_cases hkx : k x = v <;> simp [List.filter_cons, hkx, ih]

/-- Claim C7, counterexample.  A transaction with a non-empty unparseable
date is NOT treated as epoch-zero: new Date("NOT A DATE") is an Invalid
Date, the comparator value is NaN, SortCompare maps NaN to +0, and the
stable sort leaves the pair in place - while the claim's epoch-zero key
would move the unparseable transaction first. -/
theorem claimC7_counterexample :
    sortTransactions [datedTxn, invalidDateTxn] = [datedTxn, invalidDateTxn] ∧
    specSortTransactions [datedTxn, invalidDateTxn] = [invalidDateTxn, datedTxn] ∧
    [datedTxn, invalidDateTxn] ≠ [invalidDateTxn, datedTxn] := by
  refine ⟨by decide, by decide, by decide⟩

/-- Claim C7, amended.  For every ledger transaction list none of whose
dates is a non-empty unparseable string, the sort is by date ascending with
missing dates treated as epoch-zero (sorting first), and it is stable: the
output is a permutation of the input, pairwise ordered by the epoch-zero
date key, and for every key value the transactions holding it keep their
insertion order.  A transaction with an unparseable date instead compares
equal to every neighbour and keeps its position (see the counterexample). -/
theorem claimC7_thm (l : List Txn) (h : ∀ t ∈ l, isInvalidDate t.date = false) :
    (sortTransactions l).Perm l ∧
    (sortTransactions l).Pairwise (fun a b => specDateKey a.date ≤ specDateKey b.date) ∧
    ∀ v : Int, (sortTransactions l).filter (fun t => specDateKey t.date = v) =
      l.filter (fun t => specDateKey t.date = v) := by
  have heff : ∀ t : Txn, t ∈ l → effNum t.date = some (specDateKey t.date) := by
    intro t ht
    cases hdt : t.date with
    | missing => simp [effNum, specDateKey]
    | valid t0 => simp [effNum, specDateKey]
    | invalid s =>
      have h2 := h t ht
      rw [hdt] at h2
      simp [isInvalidDate] at h2
  have hagr : ∀ a ∈ l, ∀ b ∈ l,
      txnDateLe a b = keyLe (fun t : Txn => specDateKey t.date) a b := by
    intro a ha b hb
    simp only [txnDateLe, dateCmpJS, heff a ha, heff b hb, keyLe]
    rw [decide_eq_decide]
    exact sub_nonpos
  have hsort : sortTransactions l = insertionSort (keyLe (fun t : Txn => specDateKey t.date)) l :=
    insertionSort_congr l hagr
  refine ⟨insertionSort_perm txnDateLe l, ?_, ?_⟩
  · rw [sortTransactions] at hsort
    rw [sortTransactions, hsort]
    have htot : ∀ a b : Txn, keyLe (fun t : Txn => specDateKey t.date) a b = true ∨
        keyLe (fun t : Txn => specDateKey t.date) b a = true := by
      intro a b
      simp only [keyLe, decide_eq_true_eq]
      omega
    have htrans : ∀ a b c : Txn, keyLe (fun t : Txn => specDateKey t.date) a b = true →
        keyLe (fun t : Txn => specDateKey t.date) b c = true →
        keyLe (fun t : Txn => specDateKey t.date) a c = true := by
      intro a b c
      simp only [keyLe, decide_eq_true_eq]
      omega
    have hp := insertionSort_pairwise htot htrans l
    refine hp.imp ?_
    intro a b hab
    simpa [keyLe] using hab
  · intro v
    rw [sortTransactions] at hsort
    rw [sortTransactions, hsort]
    exact insertionSort_key_stable (fun t : Txn => specDateKey t.date) l v

/-- Claim C7, witness: a three-transaction ledger with a missing date, a
later date and an equal-date pair, sorted through the amended statement. -/
theorem claimC7_witness :
    (sortTransactions [datedTxn, bankTxn "CG-SUP-0003" 3 0, datedTxn]).Perm
      [datedTxn, bankTxn "CG-SUP-0003" 3 0, datedTxn] ∧
    (sortTransactions [datedTxn, bankTxn "CG-SUP-0003" 3 0, datedTxn]).Pairwise
      (fun a b => specDateKey a.date ≤ specDateKey b.date) ∧
    sortTransactions [datedTxn, bankTxn "CG-SUP-0003" 3 0, datedTxn] =
      [bankTxn "CG-SUP-0003" 3 0, datedTxn, datedTxn] := by
  have h := claimC7_thm [datedTxn, bankTxn "CG-SUP-0003" 3 0, datedTxn] (by decide)
  exact ⟨h.1, h.2.1, by decide⟩

theorem lexLeChars_total : ∀ a b : List Char, lexLeChars a b = true ∨ lexLeChars b a = true := by
  intro a
  induction a with
  | nil =>
    intro b
    left
    rfl
  | cons x xs ih =>
    intro b
    cases b with
    | nil =>
      right
      rfl
    | cons y ys =>
      by_cases h1 : x.toNat < y.toNat
      · left
        simp [lexLeChars, h1]
      · by_cases h2 : y.toNat < x.toNat
        · right
          simp [lexLeChars, h2]
        · rcases ih ys with h | h
          · left
            simp [lexLeChars, h1, h2, h]
          · right
            simp [lexLeChars, h1, h2, h]

theorem lexLeChars_trans :
    ∀ a b c : List Char, lexLeChars a b = true → lexLeChars b c = true →
      lexLeChars a c = true := by
  intro a
  induction a with
  | nil =>
    intro b c _ _
    rfl
  | cons x xs ih =>
    intro b c h1 h2
    cases b with
    | nil => simp [lexLeChars] at h1
    | cons y ys =>
      cases c with
      | nil => simp [lexLeChars] at h2
      | cons z zs =>
        by_cases hyz : y.toNat < z.toNat
        · by_cases hxy : x.toNat < y.toNat
          · simp [lexLeChars, show x.toNat < z.toNat by omega]
          · by_cases hyx : y.toNat < x.toNat
            · simp [lexLeChars, hxy, hyx] at h1
            · simp [lexLeChars, show x.toNat < z.toNat by omega]
        · by_cases hzy : z.toNat < y.toNat
          · simp [lexLeChars, hyz, hzy] at h2
          · -- y and z share the code point
            by_cases hxy : x.toNat < y.toNat
            · simp [lexLeChars, show x.toNat < z.toNat by omega]
            · by_cases hyx : y.toNat < x.toNat
              · simp [lexLeChars, hxy, hyx] at h1
              · have hxz1 : ¬(x.toNat < z.toNat) := by omega
                have hxz2 : ¬(z.toNat < x.toNat) := by omega
                simp only [lexLeChars, hxy, hyx, if_false] at h1
                simp only [lexLeChars, hyz, hzy, if_false] at h2
                simp only [lexLeChars, hxz1, hxz2, if_false]
                exact ih ys zs h1 h2

theorem ledgerLe_total : ∀ a b : Ledger, ledgerLe a b = true ∨ ledgerLe b a = true := by
  intro a b
  by_cases hc : a.ledgerCategory = b.ledgerCategory
  · rcases lexLeChars_total a.name.data b.name.data with h | h
    · left
      simp [ledgerLe, hc, nameLe, h]
    · right
      simp [ledgerLe, hc.symm, nameLe, h]
  · cases ha : a.ledgerCategory
    · left
      rw [ledgerLe, if_pos hc]
      simp [ha]
    · cases hb : b.ledgerCategory
      · right
        have hcb : ¬(b.ledgerCategory = a.ledgerCategory) := fun h2 => hc h2.symm
        rw [ledgerLe, if_pos hcb]
        simp [hb]
      · rw [ha, hb] at hc
        exact absurd rfl hc

theorem ledgerLe_trans : ∀ a b c : Ledger, ledgerLe a b = true → ledgerLe b c = true →
    ledgerLe a c = true := by
  intro a b c h1 h2
  cases ha : a.ledgerCategory <;> cases hb : b.ledgerCategory <;> cases hcc : c.ledgerCategory <;>
    simp_all [ledgerLe, nameLe] <;>
    exact lexLeChars_trans _ _ _ h1 h2

/-- Claim C9, confirmed.  For every non-empty ledger set the master index
emits exactly one row per ledger - the rows are the image of a permutation
of the input - ordered by category first (SU before CU) and then by name
ascending under the modelled case-sensitive collation. -/
theorem claimC9_thm (ledgers : List Ledger) (h : ledgers ≠ []) :
    updateLedgerMasterIndexRows ledgers = (sortLedgers ledgers).map mkIndexRow ∧
    (sortLedgers ledgers).Perm ledgers ∧
    (updateLedgerMasterIndexRows ledgers).length = ledgers.length ∧
    (sortLedgers ledgers).Pairwise (fun a b =>
      (a.ledgerCategory = Cat.SU ∧ b.ledgerCategory = Cat.CU) ∨
      (a.ledgerCategory = b.ledgerCategory ∧ nameLe a.name b.name = true)) := by
  have hne : ¬(ledgers.length = 0) := by
    intro h0
    exact h (List.length_eq_zero.mp h0)
  have hperm : (sortLedgers ledgers).Perm ledgers := insertionSort_perm ledgerLe ledgers
  refine ⟨by simp [updateLedgerMasterIndexRows, hne], hperm, ?_, ?_⟩
  · simp [updateLedgerMasterIndexRows, hne, hperm.length_eq]
  · have hp := insertionSort_pairwise ledgerLe_total ledgerLe_trans ledgers
    refine hp.imp ?_
    intro a b hab
    by_cases hc : a.ledgerCategory = b.ledgerCategory
    · right
      refine ⟨hc, ?_⟩
      simpa [ledgerLe, hc, nameLe] using hab
    · left
      have ha : a.ledgerCategory = Cat.SU := by simpa [ledgerLe, hc] using hab
      refine ⟨ha, ?_⟩
      cases hb : b.ledgerCategory
      · rw [ha, hb] at hc
        exact absurd rfl hc
      · rfl

/-- Claim C9, witness: three ledgers (a CU Beta, an SU Zeta, a CU Alpha)
index as SU Zeta first, then the CU rows by ascending name. -/
theorem claimC9_witness :
    updateLedgerMasterIndexRows
      [newLedger "CG-CUS-0002" "Beta" Cat.CU, newLedger "CG-SUP-0001" "Zeta" Cat.SU,
       newLedger "CG-CUS-0001" "Alpha" Cat.CU] =
      [mkIndexRow (newLedger "CG-SUP-0001" "Zeta" Cat.SU),
       mkIndexRow (newLedger "CG-CUS-0001" "Alpha" Cat.CU),
       mkIndexRow (newLedger "CG-CUS-0002" "Beta" Cat.CU)] ∧
    (sortLedgers
      [newLedger "CG-CUS-0002" "Beta" Cat.CU, newLedger "CG-SUP-0001" "Zeta" Cat.SU,
       newLedger "CG-CUS-0001" "Alpha" Cat.CU]).Pairwise (fun a b =>
      (a.ledgerCategory = Cat.SU ∧ b.ledgerCategory = Cat.CU) ∨
      (a.ledgerCategory = b.ledgerCategory ∧ nameLe a.name b.name = true)) := by
  refine ⟨by rfl, ?_⟩
  exact (claimC9_thm
    [newLedger "CG-CUS-0002" "Beta" Cat.CU, newLedger "CG-SUP-0001" "Zeta" Cat.SU,
     newLedger "CG-CUS-0001" "Alpha" Cat.CU] (by simp)).2.2.2

theorem fetchBody_ok_shape (env : Env) (cfg : Config) (st : SourceType) (sid : String)
    (r : FetchResult) (h : fetchBody env cfg st sid = Except.ok r) :
    r.status = .SUCCESS ∧ r.error = none := by
  unfold fetchBody at h
  rcases hopen : openById env sid with e | wb
  · simp only [hopen] at h
    exact Except.noConfusion h
  simp only [hopen] at h
  rcases htab : (cfg.sheetName st).bind (lookupA wb.tabs) with _ | allData
  · simp only [htab] at h
    exact Except.noConfusion h
  simp only [htab] at h
  by_cases hlen : allData.length < 2
  · rw [if_pos hlen] at h
    have h2 := Except.ok.inj h
    rw [← h2]
    exact ⟨rfl, rfl⟩
  · rw [if_neg hlen] at h
    by_cases hdet : detectHeaderRow allData st = -1
    · rw [if_pos hdet] at h
      exact Except.noConfusion h
    · rw [if_neg hdet] at h
      have h2 := Except.ok.inj h
      rw [← h2]
      exact ⟨rfl, rfl⟩

theorem fetchSourceData_shape (env : Env) (cfg : Config) (st : SourceType) :
    ((fetchSourceData env cfg st).status = .SKIPPED ∧
      (fetchSourceData env cfg st).error = some "Not configured" ∧
      (fetchSourceData env cfg st).data = []) ∨
    ((fetchSourceData env cfg st).status = .ERROR ∧
      (∃ msg, (fetchSourceData env cfg st).error = some msg) ∧
      (fetchSourceData env cfg st).data = []) ∨
    ((fetchSourceData env cfg st).status = .SUCCESS ∧
      (fetchSourceData env cfg st).error = none) := by
  rcases hsid : cfg.sheetId st with _ | sid
  · left
    simp [fetchSourceData, hsid]
  · rcases hbody : fetchBody env cfg st sid with msg | r
    · right
      left
      simp [fetchSourceData, hsid, hbody]
    · right
      right
      have h2 : fetchSourceData env cfg st = r := by simp [fetchSourceData, hsid, hbody]
      rw [h2]
      exact fetchBody_ok_shape env cfg st sid r hbody

/-- Claim C8, confirmed.  fetchSourceData converts every failure of its body
(missing workbook, missing tab, failed header detection) into an ERROR
result carrying the message, returns SKIPPED with a message when the source
sheet identifier is absent, and otherwise SUCCESS - nothing escapes the
per-source boundary; and in refreshData a purchase fetch error leaves the
sales fetch untouched, contributes no transactions, and ledger generation
still runs over what the surviving sources produced. -/
theorem claimC8_thm :
    (∀ (env : Env) (cfg : Config) (st : SourceType), cfg.sheetId st = none →
      fetchSourceData env cfg st =
        { data := [], rows := 0, status := .SKIPPED, error := some "Not configured" }) ∧
    (∀ (env : Env) (cfg : Config) (st : SourceType) (sid : String) (msg : String),
      cfg.sheetId st = some sid → fetchBody env cfg st sid = Except.error msg →
      fetchSourceData env cfg st =
        { data := [], rows := 0, status := .ERROR, error := some msg }) ∧
    (∀ (env : Env) (cfg : Config) (st : SourceType),
      (fetchSourceData env cfg st).status = .SUCCESS ∨
      (fetchSourceData env cfg st).status = .ERROR ∨
      (fetchSourceData env cfg st).status = .SKIPPED) ∧
    (∀ (env : Env) (cfg : Config) (st : SourceType),
      (fetchSourceData env cfg st).status = .ERROR →
      (fetchSourceData env cfg st).data = [] ∧
      ∃ msg, (fetchSourceData env cfg st).error = some msg) ∧
    (∀ (env : Env) (cfg : Config),
      (cfg.sheetId .PURCHASE).isSome = true → (cfg.sheetId .SALES).isSome = true →
      (fetchSourceData env cfg .PURCHASE).status = .ERROR →
      (refreshData env cfg).sales = fetchSourceData env cfg .SALES ∧
      (refreshData env cfg).purchase.data = [] ∧
      (refreshData env cfg).ledgers =
        (if ((fetchSourceData env cfg .SALES).data ++
            (if (cfg.sheetId .BANK).isSome then fetchBankDataAllTabs env cfg else [])).length > 0
         then generateLedgersResult ((fetchSourceData env cfg .SALES).data ++
            (if (cfg.sheetId .BANK).isSome then fetchBankDataAllTabs env cfg else []))
         else pendingGen)) := by
  have herrdata : ∀ (env : Env) (cfg : Config) (st : SourceType),
      (fetchSourceData env cfg st).status = .ERROR →
      (fetchSourceData env cfg st).data = [] ∧
      ∃ msg, (fetchSourceData env cfg st).error = some msg := by
    intro env cfg st herr
    rcases fetchSourceData_shape env cfg st with ⟨h1, _, _⟩ | ⟨h1, h2, h3⟩ | ⟨h1, _⟩
    · rw [herr] at h1
      exact absurd h1.symm (by decide)
    · exact ⟨h3, h2⟩
    · rw [herr] at h1
      exact absurd h1.symm (by decide)
  refine ⟨?_, ?_, ?_, herrdata, ?_⟩
  · intro env cfg st hsid
    simp [fetchSourceData, hsid]
  · intro env cfg st sid msg hsid hbody
    simp [fetchSourceData, hsid, hbody]
  · intro env cfg st
    rcases fetchSourceData_shape env cfg st with ⟨h1, _, _⟩ | ⟨h1, _, _⟩ | ⟨h1, _⟩
    · right
      right
      exact h1
    · right
      left
      exact h1
    · left
      exact h1
  · intro env cfg h1 h2 herr
    have hpdata : (fetchSourceData env cfg .PURCHASE).data = [] :=
      (herrdata env cfg .PURCHASE herr).1
    refine ⟨?_, ?_, ?_⟩
    · simp [refreshData, h1, h2]
    · simp [refreshData, h1, hpdata]
    · simp [refreshData, h1, h2, hpdata]

/-- Claim C8, witness: on the demo host the purchase fetch errors (missing
tab), yet the sales fetch succeeds with its row, bank reports SKIPPED, and
ledger generation still runs, producing one ledger. -/
theorem claimC8_witness :
    (fetchSourceData demoEnvC8 demoCfgC8 .PURCHASE).status = .ERROR ∧
    (refreshData demoEnvC8 demoCfgC8).sales = fetchSourceData demoEnvC8 demoCfgC8 .SALES ∧
    (fetchSourceData demoEnvC8 demoCfgC8 .SALES).status = .SUCCESS ∧
    (fetchSourceData demoEnvC8 demoCfgC8 .SALES).rows = 1 ∧
    (refreshData demoEnvC8 demoCfgC8).ledgers.count = 1 ∧
    (fetchSourceData demoEnvC8 demoCfgC8 .BANK).status = .SKIPPED := by
  have herr : (fetchSourceData demoEnvC8 demoCfgC8 .PURCHASE).status = .ERROR := by rfl
  have h5 := claimC8_thm.2.2.2.2 demoEnvC8 demoCfgC8 (by rfl) (by rfl) herr
  exact ⟨herr, h5.1, by rfl, by rfl, by rfl, by rfl⟩

/-- Claim C10, counterexample.  The guard is truthiness, not non-emptiness:
the qualifying tab's only data row has a non-empty DATE cell (the number 0,
which is falsy) and populated other cells, yet no transaction is emitted,
where the claim's emitted-iff-non-empty reading demands one. -/
theorem claimC10_counterexample :
    fetchBankDataAllTabs zeroDateEnv zeroDateCfg = [] ∧
    zeroDateRow.getD 0 (Cell.str "") ≠ Cell.str "" ∧
    bankSheetQualifies zeroDateBankTab = true ∧
    6 ≤ zeroDateBankTab.length := by
  refine ⟨by rfl, by decide, by decide, by decide⟩

/-- Claim C10, amended.  A bank-statement row of a qualifying tab is emitted
as a transaction if and only if its first cell (the DATE column) is truthy:
a non-empty string, a nonzero number, or a date.  A row whose date cell is
blank - or holds the falsy number 0 despite being non-empty - is silently
dropped even when its other cells contain data, rather than emitted with a
null date. -/
theorem claimC10_thm :
    (∀ rs : List (List Cell), bankRowsToTxns rs =
      (rs.filter (fun r => cellTruthy (r.getD 0 (Cell.str "")))).map mkBankTxn) ∧
    (∀ (env : Env) (cfg : Config) (bid : String) (wb : Workbook),
      cfg.sheetId .BANK = some bid → lookupA env.workbooks bid = some wb →
      fetchBankDataAllTabs env cfg =
        (wb.tabs.map Prod.snd).flatMap (fun rows =>
          if bankSheetQualifies rows && decide (6 ≤ rows.length) then
            ((bankDataRows rows).filter (fun r => cellTruthy (r.getD 0 (Cell.str "")))).map mkBankTxn
          else [])) := by
  have hrows : ∀ rs : List (List Cell), bankRowsToTxns rs =
      (rs.filter (fun r => cellTruthy (r.getD 0 (Cell.str "")))).map mkBankTxn := by
    intro rs
    induction rs with
    | nil => rfl
    | cons r rest ih =>
      rw [bankRowsToTxns, List.filter_cons, ih]
      by_cases hr : cellTruthy (r.getD 0 (Cell.str "")) = true
      · rw [if_pos hr, if_pos hr, List.map_cons, List.singleton_append]
      · rw [if_neg hr, if_neg hr, List.nil_append]
  refine ⟨hrows, ?_⟩
  have hsheets : ∀ sheets : List (List (List Cell)), bankSheetsToTxns sheets =
      sheets.flatMap (fun rows =>
        if bankSheetQualifies rows && decide (6 ≤ rows.length) then
          ((bankDataRows rows).filter (fun r => cellTruthy (r.getD 0 (Cell.str "")))).map mkBankTxn
        else []) := by
    intro sheets
    induction sheets with
    | nil => rfl
    | cons rows rest ih =>
      rw [bankSheetsToTxns, List.flatMap_cons, ih]
      by_cases hq : (bankSheetQualifies rows && decide (6 ≤ rows.length)) = true
      · rw [if_pos hq, if_pos hq, hrows]
      · rw [if_neg hq, if_neg hq]
  intro env cfg bid wb h1 h2
  rw [fetchBankDataAllTabs, h1]
  simp only [h2]
  exact hsheets (wb.tabs.map Prod.snd)

/-- Claim C10, witness: the amended characterization applied to the
zero-date host, where the filter keeps no row. -/
theorem claimC10_witness :
    fetchBankDataAllTabs zeroDateEnv zeroDateCfg =
      ((bankDataRows zeroDateBankTab).filter
        (fun r => cellTruthy (r.getD 0 (Cell.str "")))).map mkBankTxn ∧
    ((bankDataRows zeroDateBankTab).filter
      (fun r => cellTruthy (r.getD 0 (Cell.str "")))).map mkBankTxn = ([] : List Txn) := by
  have h := claimC10_thm.2 zeroDateEnv zeroDateCfg "BANKBOOK"
    { tabs := [("Tab1", zeroDateBankTab)] } (by rfl) (by rfl)
  refine ⟨?_, by rfl⟩
  rw [h]
  rfl
